import Mathlib

/-!
Shallow embedding of the falling-sand simulation core of the Dyg-v2
repository (src/Engine): the particle cell data model (Particle.h), the
material registry (Material.cpp), the tile ("Chunk") with its dirty
rectangle (Chunk.h / Chunk.cpp), the cellular-automaton rules
(CellularAutomata.cpp), the tile codec (Chunk::Save / Chunk::Load) and the
streaming / coordinate layer of the World (World.cpp).

Modelling conventions, chosen once for the whole file:
* C++ `int` is modelled by `Int` (no overflow occurs in the verified
  scenarios), `uint8_t` / `uint32_t` by `Nat`.
* C++ `float` values are modelled by exact rationals `ℚ`.  Every float the
  embedded code computes with is either a material constant or a random
  sample; no claim verified here depends on IEEE rounding of those values.
* `std::uniform_real_distribution<float> dist(-1.0f, 1.0f)` applied to the
  global `std::mt19937` is modelled by an explicit stream of rational
  samples (`Rng`), consumed in exactly the order the C++ code draws them.
* The grid `std::vector<Particle>` is a `List Particle` of length
  `CHUNK_SIZE * CHUNK_SIZE` in the same row-major layout
  (`FlattenIndex x y = y * CHUNK_SIZE + x`).
-/

/-- C++ truncating (toward zero) integer division, the semantics of `/` on
`int` operands; expressed through Euclidean division. -/
def cppQuot (a b : Int) : Int :=
  if 0 ≤ a then Int.ediv a b else -(Int.ediv (-a) b)

/-- C++ `%` on `int` operands: the remainder of truncating division,
satisfying `a = b * cppQuot a b + cppRem a b`. -/
def cppRem (a b : Int) : Int := a - b * cppQuot a b

/-- C++ `static_cast<int>` applied to a float: truncation toward zero. -/
def truncToInt (q : ℚ) : Int :=
  if 0 ≤ q then ⌊q⌋ else -⌊-q⌋

/-- C++ `static_cast<uint32_t>` applied to a float.  The cast is undefined
behaviour for negative or out-of-range values; the embedding clamps
negatives to 0, and every theorem that depends on the resulting value keeps
the argument in the well-defined range `[0, 2^32)`. -/
def truncToU32 (q : ℚ) : Nat := (truncToInt q).toNat

/-- Particle.h `struct Particle`: material id (`uint8_t`), velocity
(`float` × 2, modelled as exact rationals), lifetime and flags
(`uint32_t`). -/
structure Particle where
  materialID : Nat
  velocityX : ℚ
  velocityY : ℚ
  lifetime : Nat
  flags : Nat
deriving DecidableEq, Repr

/-- The value-initialized particle `Particle()`: the empty cell. -/
def Particle.mkEmpty : Particle :=
  { materialID := 0, velocityX := 0, velocityY := 0, lifetime := 0, flags := 0 }

/-- `Particle(uint8_t material)`: given material id, zero velocity,
lifetime and flags. -/
def Particle.ofMaterial (m : Nat) : Particle :=
  { materialID := m, velocityX := 0, velocityY := 0, lifetime := 0, flags := 0 }

/-- `Particle::IsEmpty`: `materialID == 0`. -/
def Particle.IsEmpty (p : Particle) : Bool := p.materialID == 0

/-- Material.h `struct Material`, restricted to the fields the simulation
rules read (name and RGBA color are rendering-only and never consulted by
the embedded operations). -/
structure Material where
  id : Nat
  density : ℚ
  viscosity : ℚ
  flammability : ℚ
  isLiquid : Bool
  isGas : Bool
  isSolid : Bool
  spreadFactor : ℚ
  corrosiveness : ℚ
deriving DecidableEq, Repr

/-- The material with only an id and a name set
(`Material(uint8_t, std::string)` constructor defaults). -/
def Material.base (i : Nat) : Material :=
  { id := i, density := 1, viscosity := 0, flammability := 0,
    isLiquid := false, isGas := false, isSolid := false,
    spreadFactor := 1, corrosiveness := 0 }

/-- The material table built by `MaterialDatabase::Initialize`
(Material.cpp): ids 0–10 with the registered properties.
`MaterialDatabase::GetMaterial` uses `unordered_map::at`, which throws for
an unregistered id; that case never arises in the verified statements (all
hypotheses keep material ids inside the registered table), and the
embedding returns the default-constructed material there. -/
def getMaterial (i : Nat) : Material :=
  match i with
  | 0 => { Material.base 0 with density := 0 }
  | 1 => { Material.base 1 with density := 3/2, isSolid := true }
  | 2 => { Material.base 2 with density := 1, viscosity := 7/10, isLiquid := true, spreadFactor := 4 }
  | 3 => { Material.base 3 with density := 5/2, isSolid := true }
  | 4 => { Material.base 4 with density := 1/5, flammability := 1 }
  | 5 => { Material.base 5 with density := 4/5, isSolid := true, flammability := 7/10 }
  | 6 => { Material.base 6 with density := 13/10, isSolid := true, flammability := 19/20 }
  | 7 => { Material.base 7 with density := 11/10, viscosity := 3/5, isLiquid := true, spreadFactor := 7/2, corrosiveness := 4/5 }
  | 8 => { Material.base 8 with density := 17/20, viscosity := 4/5, isLiquid := true, spreadFactor := 3, flammability := 17/20 }
  | 9 => { Material.base 9 with density := 1/10, isGas := true }
  | 10 => { Material.base 10 with density := 7/5, isSolid := true }
  | _ => Material.base i

/-- Chunk.h `struct Rect`: an axis-aligned rectangle `(x, y, width,
height)` over `int` coordinates. -/
structure Rect where
  x : Int
  y : Int
  width : Int
  height : Int
deriving DecidableEq, Repr

/-- `Rect()` default constructor: all components zero. -/
def Rect.zero : Rect := ⟨0, 0, 0, 0⟩

/-- `Rect::IsEmpty`: `width <= 0 || height <= 0`. -/
def Rect.IsEmpty (r : Rect) : Bool := r.width ≤ 0 || r.height ≤ 0

/-- `Rect::Expand(_x, _y)`: the source's asymmetric growth formula, one
independent if/else chain per axis (the x-axis chain runs first; it does
not touch the y fields, so the sequential C++ mutation is the composition
below). -/
def Rect.Expand (r : Rect) (px py : Int) : Rect :=
  let r1 :=
    if px < r.x then { r with x := px, width := r.width + (r.x - px) }
    else if px ≥ r.x + r.width then { r with width := px - r.x + 1 }
    else r
  if py < r1.y then { r1 with y := py, height := r1.height + (r1.y - py) }
  else if py ≥ r1.y + r1.height then { r1 with height := py - r1.y + 1 }
  else r1

/-- Membership of a point in a rect, the intended reading of the dirty
rect: `x ∈ [r.x, r.x + r.width)` and `y ∈ [r.y, r.y + r.height)`. -/
def Rect.Contains (r : Rect) (px py : Int) : Prop :=
  r.x ≤ px ∧ px < r.x + r.width ∧ r.y ≤ py ∧ py < r.y + r.height

instance (r : Rect) (px py : Int) : Decidable (r.Contains px py) := by
  unfold Rect.Contains; infer_instance

/-- `Chunk::CHUNK_SIZE`. -/
def CHUNK_SIZE : Int := 64

/-- Chunk.h `class Chunk`: tile coordinate, row-major particle grid, dirty
rect.  (`m_Updated` is declared in the source but never read; it is
omitted.) -/
structure Chunk where
  coord : Int × Int
  grid : List Particle
  dirtyRect : Rect
deriving DecidableEq, Repr

/-- `Chunk::FlattenIndex`: `y * CHUNK_SIZE + x`, as a list index (callers
establish `IsInBounds`, under which the value is `y*64 + x < 4096`). -/
def flattenIndex (x y : Int) : Nat := (y * CHUNK_SIZE + x).toNat

/-- `Chunk::IsInBounds`. -/
def Chunk.IsInBounds (x y : Int) : Bool :=
  decide (x ≥ 0) && decide (x < CHUNK_SIZE) && decide (y ≥ 0) && decide (y < CHUNK_SIZE)

/-- The `Chunk(coord)` constructor: a grid of `CHUNK_SIZE * CHUNK_SIZE`
value-initialized (empty) particles and a cleared dirty rect. -/
def Chunk.mk0 (coord : Int × Int) : Chunk :=
  { coord := coord, grid := List.replicate 4096 Particle.mkEmpty, dirtyRect := Rect.zero }

/-- `Chunk::GetParticle` (both overloads): the stored particle when in
bounds, the static default (empty) particle otherwise. -/
def Chunk.GetParticle (c : Chunk) (x y : Int) : Particle :=
  if Chunk.IsInBounds x y then c.grid.getD (flattenIndex x y) Particle.mkEmpty
  else Particle.mkEmpty

/-- A store through a `Particle&` obtained from `Chunk::GetParticle` at an
in-bounds coordinate (`m_Grid[FlattenIndex(x, y)] = p`).  Out of bounds the
C++ reference aliases the static dummy particle and the grid is unchanged. -/
def Chunk.writeCell (c : Chunk) (x y : Int) (p : Particle) : Chunk :=
  if Chunk.IsInBounds x y then { c with grid := c.grid.set (flattenIndex x y) p }
  else c

/-- `Chunk::MarkDirty`. -/
def Chunk.MarkDirty (c : Chunk) (x y : Int) : Chunk :=
  if Chunk.IsInBounds x y then
    if c.dirtyRect.IsEmpty then { c with dirtyRect := ⟨x, y, 1, 1⟩ }
    else { c with dirtyRect := c.dirtyRect.Expand x y }
  else c

/-- `Chunk::SetParticle`: overwrite the cell, then mark it dirty. -/
def Chunk.SetParticle (c : Chunk) (x y : Int) (p : Particle) : Chunk :=
  if Chunk.IsInBounds x y then (c.writeCell x y p).MarkDirty x y
  else c

/-- `Chunk::ClearDirty`: reset the rect to the default (empty) rect. -/
def Chunk.ClearDirty (c : Chunk) : Chunk := { c with dirtyRect := Rect.zero }

/-- `Chunk::IsDirty`. -/
def Chunk.IsDirty (c : Chunk) : Bool := !c.dirtyRect.IsEmpty

/-- The stream of samples drawn from
`std::uniform_real_distribution<float> dist(-1.0f, 1.0f)` on the global
generator, in draw order.  An exhausted stream yields 0 (no verified
statement consumes past the supplied samples). -/
abbrev Rng := List ℚ

/-- Draw the next sample. -/
def Rng.next : Rng → ℚ × Rng
  | [] => (0, [])
  | r :: rs => (r, rs)

/-- `CellularAutomata::IsEmpty`: out-of-bounds cells are treated as
non-empty. -/
def CellularAutomata.IsEmptyAt (c : Chunk) (x y : Int) : Bool :=
  if Chunk.IsInBounds x y then (c.GetParticle x y).IsEmpty else false

/-- `CellularAutomata::MoveParticle`: bounds-check source and destination,
refuse a non-empty destination, otherwise copy the source cell to the
destination, write an empty cell to the source, and mark both dirty. -/
def CellularAutomata.MoveParticle (c : Chunk) (srcX srcY destX destY : Int) : Chunk × Bool :=
  if !Chunk.IsInBounds srcX srcY || !Chunk.IsInBounds destX destY then (c, false)
  else
    let srcP := c.GetParticle srcX srcY
    let destP := c.GetParticle destX destY
    if !destP.IsEmpty then (c, false)
    else
      let c := c.writeCell destX destY srcP
      let c := c.writeCell srcX srcY Particle.mkEmpty
      let c := c.MarkDirty srcX srcY
      let c := c.MarkDirty destX destY
      (c, true)

/-- `CellularAutomata::SwapParticles`: bounds-check both cells, exchange
them, mark both dirty. -/
def CellularAutomata.SwapParticles (c : Chunk) (x1 y1 x2 y2 : Int) : Chunk × Bool :=
  if !Chunk.IsInBounds x1 y1 || !Chunk.IsInBounds x2 y2 then (c, false)
  else
    let p1 := c.GetParticle x1 y1
    let p2 := c.GetParticle x2 y2
    let c := c.writeCell x1 y1 p2
    let c := c.writeCell x2 y2 p1
    let c := (c.MarkDirty x1 y1).MarkDirty x2 y2
    (c, true)

/-- `CellularAutomata::ApplyGravity`: `velocityY += 9.8 * dt`. -/
def CellularAutomata.ApplyGravity (p : Particle) (dt : ℚ) : Particle :=
  { p with velocityY := p.velocityY + (49/5) * dt }

/-- `CellularAutomata::UpdateVelocity`: viscous damping on both velocity
components, then gravity (downward for non-gas, upward drift for gas). -/
def CellularAutomata.UpdateVelocity (p : Particle) (dt : ℚ) : Particle :=
  let material := getMaterial p.materialID
  let dampingFactor : ℚ := 1 - material.viscosity * (1/2)
  let p := { p with velocityX := p.velocityX * dampingFactor,
                    velocityY := p.velocityY * dampingFactor }
  if !material.isGas then CellularAutomata.ApplyGravity p dt
  else { p with velocityY := p.velocityY - 3 * dt }

/-- `CellularAutomata::UpdateSand` (also used by stone, wood, and solid
fallbacks): fall straight down if possible, otherwise coin-flip the order
of the two diagonal-below attempts. -/
def CellularAutomata.UpdateSand (c : Chunk) (x y : Int) (dt : ℚ) (g : Rng) : Chunk × Rng :=
  if CellularAutomata.IsEmptyAt c x (y+1) then
    ((CellularAutomata.MoveParticle c x y x (y+1)).1, g)
  else
    let (r, g) := g.next
    if r > 0 then
      let res := if CellularAutomata.IsEmptyAt c (x-1) (y+1) then
          CellularAutomata.MoveParticle c x y (x-1) (y+1) else (c, false)
      if res.2 then (res.1, g)
      else if CellularAutomata.IsEmptyAt res.1 (x+1) (y+1) then
        ((CellularAutomata.MoveParticle res.1 x y (x+1) (y+1)).1, g)
      else (res.1, g)
    else
      let res := if CellularAutomata.IsEmptyAt c (x+1) (y+1) then
          CellularAutomata.MoveParticle c x y (x+1) (y+1) else (c, false)
      if res.2 then (res.1, g)
      else if CellularAutomata.IsEmptyAt res.1 (x-1) (y+1) then
        ((CellularAutomata.MoveParticle res.1 x y (x-1) (y+1)).1, g)
      else (res.1, g)

/-- One direction of the liquid lateral-spread loop
(`for offset = 1..spreadDistance while !moved`): at each offset whose cell
is empty, attempt the move and stop on success; a non-empty offset is
skipped and the scan continues to the next offset. -/
def CellularAutomata.spreadTry : Chunk → Int → Int → Int → Nat → Nat → Chunk × Bool
  | c, _, _, _, 0, _ => (c, false)
  | c, x, y, sign, fuel+1, o =>
    if CellularAutomata.IsEmptyAt c (x + sign * (o : Int)) y then
      let res := CellularAutomata.MoveParticle c x y (x + sign * (o : Int)) y
      if res.2 then res else CellularAutomata.spreadTry res.1 x y sign fuel (o+1)
    else CellularAutomata.spreadTry c x y sign fuel (o+1)

/-- `CellularAutomata::UpdateWater`: fall; otherwise lateral spread with a
coin-chosen first direction (offsets `1..spreadFactor`, non-empty offsets
skipped), then the other direction; otherwise one diagonal-below attempt
(left preferred). -/
def CellularAutomata.UpdateWater (c : Chunk) (x y : Int) (dt : ℚ) (g : Rng) : Chunk × Rng :=
  if CellularAutomata.IsEmptyAt c x (y+1) then
    ((CellularAutomata.MoveParticle c x y x (y+1)).1, g)
  else
    let material := getMaterial (c.GetParticle x y).materialID
    let spreadDistance := truncToInt material.spreadFactor
    let (r, g) := g.next
    let res :=
      if r > 0 then
        let resL := CellularAutomata.spreadTry c x y (-1) spreadDistance.toNat 1
        if resL.2 then resL else CellularAutomata.spreadTry resL.1 x y 1 spreadDistance.toNat 1
      else
        let resR := CellularAutomata.spreadTry c x y 1 spreadDistance.toNat 1
        if resR.2 then resR else CellularAutomata.spreadTry resR.1 x y (-1) spreadDistance.toNat 1
    if res.2 then (res.1, g)
    else if CellularAutomata.IsEmptyAt res.1 (x-1) (y+1) then
      ((CellularAutomata.MoveParticle res.1 x y (x-1) (y+1)).1, g)
    else if CellularAutomata.IsEmptyAt res.1 (x+1) (y+1) then
      ((CellularAutomata.MoveParticle res.1 x y (x+1) (y+1)).1, g)
    else (res.1, g)

/-- The eight neighbor offsets `(dx, dy)` in the traversal order of the
source's double loops (`dy` outer from −1 to 1, `dx` inner from −1 to 1,
`(0, 0)` skipped). -/
def neighborOffsets : List (Int × Int) :=
  [(-1, -1), (0, -1), (1, -1), (-1, 0), (1, 0), (-1, 1), (0, 1), (1, 1)]

/-- The flicker step of `CellularAutomata::UpdateFire`: with the 0.3
threshold, try up, then up-left gated by a coin, then up-right, left,
right. -/
def CellularAutomata.fireFlicker (c : Chunk) (x y : Int) (g : Rng) : Chunk × Rng :=
  let (r, g) := g.next
  if r < 3/10 then
    if CellularAutomata.IsEmptyAt c x (y-1) then
      ((CellularAutomata.MoveParticle c x y x (y-1)).1, g)
    else if CellularAutomata.IsEmptyAt c (x-1) (y-1) then
      let (r2, g) := g.next
      if r2 > 0 then ((CellularAutomata.MoveParticle c x y (x-1) (y-1)).1, g)
      else if CellularAutomata.IsEmptyAt c (x+1) (y-1) then
        ((CellularAutomata.MoveParticle c x y (x+1) (y-1)).1, g)
      else if CellularAutomata.IsEmptyAt c (x-1) y then
        ((CellularAutomata.MoveParticle c x y (x-1) y).1, g)
      else if CellularAutomata.IsEmptyAt c (x+1) y then
        ((CellularAutomata.MoveParticle c x y (x+1) y).1, g)
      else (c, g)
    else if CellularAutomata.IsEmptyAt c (x+1) (y-1) then
      ((CellularAutomata.MoveParticle c x y (x+1) (y-1)).1, g)
    else if CellularAutomata.IsEmptyAt c (x-1) y then
      ((CellularAutomata.MoveParticle c x y (x-1) y).1, g)
    else if CellularAutomata.IsEmptyAt c (x+1) y then
      ((CellularAutomata.MoveParticle c x y (x+1) y).1, g)
    else (c, g)
  else (c, g)

/-- The ignition pass of `CellularAutomata::UpdateFire`: visit neighbors in
order while fewer than 2 ignitions have happened; a non-empty, non-fire,
non-smoke, flammable neighbor ignites with threshold
`flammability * 0.15` (doubled for gunpowder, ×1.5 for oil). -/
def CellularAutomata.fireIgnite : Chunk → Int → Int → Rng → Nat → List (Int × Int) → Chunk × Rng
  | c, _, _, g, _, [] => (c, g)
  | c, x, y, g, spreadAttempts, d :: rest =>
    if spreadAttempts ≥ 2 then (c, g)
    else
      let nx := x + d.1
      let ny := y + d.2
      if !Chunk.IsInBounds nx ny then CellularAutomata.fireIgnite c x y g spreadAttempts rest
      else
        let neighbor := c.GetParticle nx ny
        if neighbor.IsEmpty then CellularAutomata.fireIgnite c x y g spreadAttempts rest
        else
          let neighborMaterial := getMaterial neighbor.materialID
          if neighbor.materialID == 4 || neighbor.materialID == 9 then
            CellularAutomata.fireIgnite c x y g spreadAttempts rest
          else if neighborMaterial.flammability > 0 then
            let p0 := neighborMaterial.flammability * (3/20)
            let p1 := if neighbor.materialID == 6 then p0 * 2 else p0
            let p2 := if neighbor.materialID == 8 then p1 * (3/2) else p1
            let (r, g) := g.next
            if r < p2 then
              let (r2, g) := g.next
              let fl0 := 100 + truncToU32 (r2 * 50)
              let fl1 := if neighbor.materialID == 5 then fl0 + 100 else fl0
              let fl2 := if neighbor.materialID == 8 then fl1 + 50 else fl1
              let fireParticle := { Particle.ofMaterial 4 with lifetime := fl2 }
              CellularAutomata.fireIgnite (c.SetParticle nx ny fireParticle) x y g
                (spreadAttempts + 1) rest
            else CellularAutomata.fireIgnite c x y g spreadAttempts rest
          else CellularAutomata.fireIgnite c x y g spreadAttempts rest

/-- The smoke-spawn step of `CellularAutomata::UpdateFire`: one sample is
always drawn; with the 0.05 threshold and an in-bounds empty cell above,
spawn smoke with lifetime `250 + [0..150]`. -/
def CellularAutomata.fireSmokeSpawn (c : Chunk) (x y : Int) (g : Rng) : Chunk × Rng :=
  let (r, g) := g.next
  if r < 1/20 then
    if Chunk.IsInBounds x (y-1) then
      let above := c.GetParticle x (y-1)
      if above.IsEmpty then
        let (r2, g) := g.next
        let smoke := { Particle.ofMaterial 9 with lifetime := 250 + truncToU32 (r2 * 150) }
        (c.SetParticle x (y-1) smoke, g)
      else (c, g)
    else (c, g)
  else (c, g)

/-- The part of `CellularAutomata::UpdateFire` that runs after the
lifetime bookkeeping (flicker, ignition pass, smoke spawn, in source
order). -/
def CellularAutomata.firePost (c : Chunk) (x y : Int) (g : Rng) : Chunk × Rng :=
  let fg := CellularAutomata.fireFlicker c x y g
  let ig := CellularAutomata.fireIgnite fg.1 x y fg.2 0 neighborOffsets
  CellularAutomata.fireSmokeSpawn ig.1 x y ig.2

/-- `CellularAutomata::UpdateFire`: with positive lifetime, decrement it
and run the flicker / ignition / smoke steps; with lifetime already 0,
burn out (replace the cell with smoke under the 0.6 threshold, else with
empty) and return. -/
def CellularAutomata.UpdateFire (c : Chunk) (x y : Int) (dt : ℚ) (g : Rng) : Chunk × Rng :=
  let particle := c.GetParticle x y
  if particle.lifetime > 0 then
    CellularAutomata.firePost
      (c.writeCell x y { particle with lifetime := particle.lifetime - 1 }) x y g
  else
    let (r, g) := g.next
    if r < 3/5 then
      let (r2, g) := g.next
      let smoke := { Particle.ofMaterial 9 with lifetime := 200 + truncToU32 (r2 * 150) }
      (c.SetParticle x y smoke, g)
    else (c.SetParticle x y Particle.mkEmpty, g)

/-- `CellularAutomata::UpdateGas`: rise; otherwise an up-diagonal with
coin-flipped ordering; otherwise horizontal with coin-flipped ordering. -/
def CellularAutomata.UpdateGas (c : Chunk) (x y : Int) (dt : ℚ) (g : Rng) : Chunk × Rng :=
  if CellularAutomata.IsEmptyAt c x (y-1) then
    ((CellularAutomata.MoveParticle c x y x (y-1)).1, g)
  else
    let (r, g) := g.next
    let res :=
      if r > 0 then
        if CellularAutomata.IsEmptyAt c (x-1) (y-1) then
          CellularAutomata.MoveParticle c x y (x-1) (y-1)
        else if CellularAutomata.IsEmptyAt c (x+1) (y-1) then
          CellularAutomata.MoveParticle c x y (x+1) (y-1)
        else (c, false)
      else
        if CellularAutomata.IsEmptyAt c (x+1) (y-1) then
          CellularAutomata.MoveParticle c x y (x+1) (y-1)
        else if CellularAutomata.IsEmptyAt c (x-1) (y-1) then
          CellularAutomata.MoveParticle c x y (x-1) (y-1)
        else (c, false)
    if res.2 then (res.1, g)
    else
      let (r2, g) := g.next
      if r2 > 0 then
        (if CellularAutomata.IsEmptyAt res.1 (x-1) y then
           (CellularAutomata.MoveParticle res.1 x y (x-1) y).1
         else if CellularAutomata.IsEmptyAt res.1 (x+1) y then
           (CellularAutomata.MoveParticle res.1 x y (x+1) y).1
         else res.1, g)
      else
        (if CellularAutomata.IsEmptyAt res.1 (x+1) y then
           (CellularAutomata.MoveParticle res.1 x y (x+1) y).1
         else if CellularAutomata.IsEmptyAt res.1 (x-1) y then
           (CellularAutomata.MoveParticle res.1 x y (x-1) y).1
         else res.1, g)

/-- The fire scan of `CellularAutomata::UpdateGunpowder`: is some
in-bounds neighbor fire? -/
def CellularAutomata.gunpowderNearFire (c : Chunk) (x y : Int) : Bool :=
  neighborOffsets.any (fun d =>
    Chunk.IsInBounds (x + d.1) (y + d.2) && (c.GetParticle (x + d.1) (y + d.2)).materialID == 4)

/-- The explosion scatter of `CellularAutomata::UpdateGunpowder`: each
empty in-bounds neighbor is, with the 0.4 threshold, filled with smoke or
fire chosen by a fair coin. -/
def CellularAutomata.gunpowderScatter : Chunk → Int → Int → Rng → List (Int × Int) → Chunk × Rng
  | c, _, _, g, [] => (c, g)
  | c, x, y, g, d :: rest =>
    let nx := x + d.1
    let ny := y + d.2
    if !Chunk.IsInBounds nx ny then CellularAutomata.gunpowderScatter c x y g rest
    else
      let neighbor := c.GetParticle nx ny
      if neighbor.IsEmpty then
        let (r, g) := g.next
        if r < 2/5 then
          let (r2, g) := g.next
          if r2 > 0 then
            CellularAutomata.gunpowderScatter (c.SetParticle nx ny (Particle.ofMaterial 9)) x y g rest
          else
            let (r3, g) := g.next
            let fire := { Particle.ofMaterial 4 with lifetime := 100 + truncToU32 (r3 * 50) }
            CellularAutomata.gunpowderScatter (c.SetParticle nx ny fire) x y g rest
        else CellularAutomata.gunpowderScatter c x y g rest
      else CellularAutomata.gunpowderScatter c x y g rest

/-- `CellularAutomata::UpdateGunpowder`: near fire, ignite with the 0.8
threshold (convert to fire, scatter into neighbors, stop); otherwise
behave like sand. -/
def CellularAutomata.UpdateGunpowder (c : Chunk) (x y : Int) (dt : ℚ) (g : Rng) : Chunk × Rng :=
  if CellularAutomata.gunpowderNearFire c x y then
    let (r, g) := g.next
    if r < 4/5 then
      let (r2, g) := g.next
      let fireParticle := { Particle.ofMaterial 4 with lifetime := 150 + truncToU32 (r2 * 50) }
      CellularAutomata.gunpowderScatter (c.SetParticle x y fireParticle) x y g neighborOffsets
    else CellularAutomata.UpdateSand c x y dt g
  else CellularAutomata.UpdateSand c x y dt g

/-- The dissolve scan of `CellularAutomata::UpdateAcid`: each non-empty,
non-fire, non-smoke in-bounds neighbor is erased with threshold
`corrosiveness * (1/density) * 0.1` (×0.2 for stone). -/
def CellularAutomata.acidDissolve : Chunk → Int → Int → Rng → List (Int × Int) → Chunk × Rng
  | c, _, _, g, [] => (c, g)
  | c, x, y, g, d :: rest =>
    let nx := x + d.1
    let ny := y + d.2
    if !Chunk.IsInBounds nx ny then CellularAutomata.acidDissolve c x y g rest
    else
      let neighbor := c.GetParticle nx ny
      if neighbor.IsEmpty then CellularAutomata.acidDissolve c x y g rest
      else
        let acidMaterial := getMaterial 7
        let targetMaterial := getMaterial neighbor.materialID
        let p0 := acidMaterial.corrosiveness * (1 / targetMaterial.density) * (1/10)
        let p1 := if neighbor.materialID == 3 then p0 * (1/5) else p0
        if neighbor.materialID == 4 || neighbor.materialID == 9 then
          CellularAutomata.acidDissolve c x y g rest
        else
          let (r, g) := g.next
          if r < p1 then
            CellularAutomata.acidDissolve ((c.writeCell nx ny Particle.mkEmpty).MarkDirty nx ny)
              x y g rest
          else CellularAutomata.acidDissolve c x y g rest

/-- `CellularAutomata::UpdateAcid`: dissolve scan, then the water rule. -/
def CellularAutomata.UpdateAcid (c : Chunk) (x y : Int) (dt : ℚ) (g : Rng) : Chunk × Rng :=
  let dg := CellularAutomata.acidDissolve c x y g neighborOffsets
  CellularAutomata.UpdateWater dg.1 x y dt dg.2

/-- The fire scan of `CellularAutomata::UpdateOil`: on each fire neighbor,
with the 0.7 threshold convert the oil itself to fire and stop (third
component true). -/
def CellularAutomata.oilFireScan : Chunk → Int → Int → Rng → List (Int × Int) → Chunk × Rng × Bool
  | c, _, _, g, [] => (c, g, false)
  | c, x, y, g, d :: rest =>
    let nx := x + d.1
    let ny := y + d.2
    if !Chunk.IsInBounds nx ny then CellularAutomata.oilFireScan c x y g rest
    else if (c.GetParticle nx ny).materialID == 4 then
      let (r, g) := g.next
      if r < 7/10 then
        let (r2, g) := g.next
        let fireParticle := { Particle.ofMaterial 4 with lifetime := 120 + truncToU32 (r2 * 40) }
        (c.SetParticle x y fireParticle, g, true)
      else CellularAutomata.oilFireScan c x y g rest
    else CellularAutomata.oilFireScan c x y g rest

/-- `CellularAutomata::UpdateOil`: fire scan; fall; float by swapping with
water below or diagonally below; otherwise the liquid lateral spread and
diagonal fallback with oil's spread factor. -/
def CellularAutomata.UpdateOil (c : Chunk) (x y : Int) (dt : ℚ) (g : Rng) : Chunk × Rng :=
  let scan := CellularAutomata.oilFireScan c x y g neighborOffsets
  if scan.2.2 then (scan.1, scan.2.1)
  else
    let c := scan.1
    let g := scan.2.1
    if CellularAutomata.IsEmptyAt c x (y+1) then
      ((CellularAutomata.MoveParticle c x y x (y+1)).1, g)
    else if Chunk.IsInBounds x (y+1) && (c.GetParticle x (y+1)).materialID == 2 then
      ((CellularAutomata.SwapParticles c x y x (y+1)).1, g)
    else if Chunk.IsInBounds (x-1) (y+1) && (c.GetParticle (x-1) (y+1)).materialID == 2 then
      ((CellularAutomata.SwapParticles c x y (x-1) (y+1)).1, g)
    else if Chunk.IsInBounds (x+1) (y+1) && (c.GetParticle (x+1) (y+1)).materialID == 2 then
      ((CellularAutomata.SwapParticles c x y (x+1) (y+1)).1, g)
    else
      let material := getMaterial (c.GetParticle x y).materialID
      let spreadDistance := truncToInt material.spreadFactor
      let (r, g) := g.next
      let res :=
        if r > 0 then
          let resL := CellularAutomata.spreadTry c x y (-1) spreadDistance.toNat 1
          if resL.2 then resL else CellularAutomata.spreadTry resL.1 x y 1 spreadDistance.toNat 1
        else
          let resR := CellularAutomata.spreadTry c x y 1 spreadDistance.toNat 1
          if resR.2 then resR else CellularAutomata.spreadTry resR.1 x y (-1) spreadDistance.toNat 1
      if res.2 then (res.1, g)
      else if CellularAutomata.IsEmptyAt res.1 (x-1) (y+1) then
        ((CellularAutomata.MoveParticle res.1 x y (x-1) (y+1)).1, g)
      else if CellularAutomata.IsEmptyAt res.1 (x+1) (y+1) then
        ((CellularAutomata.MoveParticle res.1 x y (x+1) (y+1)).1, g)
      else (res.1, g)

/-- `CellularAutomata::UpdateSmoke`: decrement lifetime (re-seeding a zero
lifetime with `300 + [0..200]`), fade out under the 0.1 threshold once the
lifetime is below 30, otherwise behave like gas. -/
def CellularAutomata.UpdateSmoke (c : Chunk) (x y : Int) (dt : ℚ) (g : Rng) : Chunk × Rng :=
  let particle := c.GetParticle x y
  let pg :=
    if particle.lifetime > 0 then ({ particle with lifetime := particle.lifetime - 1 }, g)
    else
      let (r, g) := g.next
      ({ particle with lifetime := 300 + truncToU32 (r * 200) }, g)
  let particle := pg.1
  let g := pg.2
  let c := c.writeCell x y particle
  if particle.lifetime < 30 then
    let (r, g) := g.next
    if r < 1/10 then (c.SetParticle x y Particle.mkEmpty, g)
    else CellularAutomata.UpdateGas c x y dt g
  else CellularAutomata.UpdateGas c x y dt g

/-- The dissolution scan of `CellularAutomata::UpdateSalt`: on each water
neighbor, dissolve (become empty and stop) with the 0.05 threshold. -/
def CellularAutomata.saltScan : Chunk → Int → Int → Rng → List (Int × Int) → Chunk × Rng × Bool
  | c, _, _, g, [] => (c, g, false)
  | c, x, y, g, d :: rest =>
    let nx := x + d.1
    let ny := y + d.2
    if !Chunk.IsInBounds nx ny then CellularAutomata.saltScan c x y g rest
    else if (c.GetParticle nx ny).materialID == 2 then
      let (r, g) := g.next
      if r < 1/20 then (c.SetParticle x y Particle.mkEmpty, g, true)
      else CellularAutomata.saltScan c x y g rest
    else CellularAutomata.saltScan c x y g rest

/-- `CellularAutomata::UpdateSalt`: dissolve in neighboring water, else
behave like sand. -/
def CellularAutomata.UpdateSalt (c : Chunk) (x y : Int) (dt : ℚ) (g : Rng) : Chunk × Rng :=
  let scan := CellularAutomata.saltScan c x y g neighborOffsets
  if scan.2.2 then (scan.1, scan.2.1)
  else CellularAutomata.UpdateSand scan.1 x y dt scan.2.1

/-- `CellularAutomata::UpdateParticle`: skip empty cells, dispatch on the
material id (with the category-based fallback for unknown ids), then apply
`UpdateVelocity` through the reference to cell `(x, y)` — i.e. to whatever
particle occupies `(x, y)` after the rule ran. -/
def CellularAutomata.UpdateParticle (c : Chunk) (x y : Int) (dt : ℚ) (g : Rng) : Chunk × Rng :=
  let particle := c.GetParticle x y
  if particle.IsEmpty then (c, g)
  else
    let cg :=
      match particle.materialID with
      | 1 | 3 | 5 => CellularAutomata.UpdateSand c x y dt g
      | 2 => CellularAutomata.UpdateWater c x y dt g
      | 4 => CellularAutomata.UpdateFire c x y dt g
      | 6 => CellularAutomata.UpdateGunpowder c x y dt g
      | 7 => CellularAutomata.UpdateAcid c x y dt g
      | 8 => CellularAutomata.UpdateOil c x y dt g
      | 9 => CellularAutomata.UpdateSmoke c x y dt g
      | 10 => CellularAutomata.UpdateSalt c x y dt g
      | _ =>
        let material := getMaterial particle.materialID
        if material.isSolid && !material.isLiquid && !material.isGas then
          CellularAutomata.UpdateSand c x y dt g
        else if material.isLiquid then CellularAutomata.UpdateWater c x y dt g
        else if material.isGas then CellularAutomata.UpdateGas c x y dt g
        else if material.flammability > 0 then CellularAutomata.UpdateFire c x y dt g
        else (c, g)
    let c := cg.1
    (c.writeCell x y (CellularAutomata.UpdateVelocity (c.GetParticle x y) dt), cg.2)

/-- The list `[lo, lo+1, ..., lo+len-1]` of `Int` loop indices. -/
def intRange (lo : Int) (len : Nat) : List Int :=
  (List.range len).map (fun i : Nat => lo + (i : Int))

/-- The row-major traversal domain of `Chunk::Update`: the dirty rect
clamped to the tile bounds (`startX/startY` raised to 0, `endX/endY`
lowered to `CHUNK_SIZE`), rows outer. -/
def updateCoords (r : Rect) : List (Int × Int) :=
  let startX := max 0 r.x
  let startY := max 0 r.y
  let endX := min CHUNK_SIZE (r.x + r.width)
  let endY := min CHUNK_SIZE (r.y + r.height)
  (intRange startY (endY - startY).toNat).flatMap
    (fun yy => (intRange startX (endX - startX).toNat).map (fun xx => (xx, yy)))

/-- `Chunk::Update`: skip a clean tile; otherwise iterate the dirty rect
clamped to the tile bounds in row-major order, dispatching the rule on
each cell, and clear the dirty rect at the end. -/
def Chunk.Update (c : Chunk) (dt : ℚ) (g : Rng) : Chunk × Rng :=
  if c.dirtyRect.IsEmpty then (c, g)
  else
    let res := (updateCoords c.dirtyRect).foldl
      (fun (s : Chunk × Rng) xy => CellularAutomata.UpdateParticle s.1 xy.1 xy.2 dt s.2) (c, g)
    (res.1.ClearDirty, res.2)

/-- One fixed-width field of the tile file, identified by the value whose
bytes `Chunk::Save` writes with a single `file.write` call and
`Chunk::Load` reads back with the matching `file.read` call.  Copying a
field's bytes out and back in is the identity, so the byte stream is
modelled at these field boundaries; a `float` field is identified by the
exact value whose four bytes are copied. -/
inductive FieldV where
  | i32 (v : Int)
  | u8 (v : Nat)
  | f32 (v : ℚ)
  | u32 (v : Nat)
deriving DecidableEq, Repr

/-- The five writes of one particle record in `Chunk::Save`: material id,
velocity x, velocity y, lifetime, flags (17 bytes). -/
def saveParticle (p : Particle) : List FieldV :=
  [.u8 p.materialID, .f32 p.velocityX, .f32 p.velocityY, .u32 p.lifetime, .u32 p.flags]

/-- `Chunk::Save`: chunk coordinates, then the grid's particle records in
row-major storage order. -/
def Chunk.Save (c : Chunk) : List FieldV :=
  .i32 c.coord.1 :: .i32 c.coord.2 :: c.grid.flatMap saveParticle

/-- The five reads of one particle record in `Chunk::Load`. -/
def loadParticle : List FieldV → Option (Particle × List FieldV)
  | .u8 m :: .f32 vx :: .f32 vy :: .u32 lt :: .u32 fl :: rest =>
    some ({ materialID := m, velocityX := vx, velocityY := vy, lifetime := lt, flags := fl }, rest)
  | _ => none

/-- Reading `n` consecutive particle records. -/
def loadGrid : Nat → List FieldV → Option (List Particle × List FieldV)
  | 0, s => some ([], s)
  | n + 1, s =>
    match loadParticle s with
    | none => none
    | some (p, s) =>
      match loadGrid n s with
      | none => none
      | some (ps, s) => some (p :: ps, s)

/-- `Chunk::Load`: read the chunk coordinates and all
`CHUNK_SIZE * CHUNK_SIZE` particle records, then set the dirty rect to the
entire tile.  The C++ method overwrites the receiver's coordinate and
(after `resize`) its whole grid, so the receiver does not influence the
result; the failure paths of the C++ stream API are modelled by `none`. -/
def Chunk.Load (s : List FieldV) : Option Chunk :=
  match s with
  | .i32 cx :: .i32 cy :: rest =>
    match loadGrid 4096 rest with
    | some (ps, _) =>
      some { coord := (cx, cy), grid := ps, dirtyRect := ⟨0, 0, CHUNK_SIZE, CHUNK_SIZE⟩ }
    | none => none
  | _ => none

/-- `World::WorldToChunkCoord`, one axis: truncating division for
non-negative coordinates and the `(w - chunkSize + 1) / chunkSize` idiom
for negative ones. -/
def World.WorldToChunkCoord1 (w : Int) : Int :=
  if w ≥ 0 then cppQuot w CHUNK_SIZE else cppQuot (w - CHUNK_SIZE + 1) CHUNK_SIZE

/-- `World::WorldToChunkCoord`. -/
def World.WorldToChunkCoord (wx wy : Int) : Int × Int :=
  (World.WorldToChunkCoord1 wx, World.WorldToChunkCoord1 wy)

/-- `World::WorldToLocalCoord`, one axis: `w % chunkSize` for non-negative
coordinates and `(w % chunkSize + chunkSize) % chunkSize` for negative
ones. -/
def World.WorldToLocalCoord1 (w : Int) : Int :=
  if w ≥ 0 then cppRem w CHUNK_SIZE
  else cppRem (cppRem w CHUNK_SIZE + CHUNK_SIZE) CHUNK_SIZE

/-- `World::WorldToLocalCoord`. -/
def World.WorldToLocalCoord (wx wy : Int) : Int × Int :=
  (World.WorldToLocalCoord1 wx, World.WorldToLocalCoord1 wy)

/-- `m_ChunkLoadRadius` (World.h): the streaming radius R. -/
def chunkLoadRadius : Int := 3

/-- For the streaming layer only the resident coordinate set of
`m_Chunks` matters; it is modelled as a duplicate-free list of tile
coordinates.  `World::CreateChunk` inserts a coordinate only when it is
absent. -/
def insertCoord (s : List (Int × Int)) (q : Int × Int) : List (Int × Int) :=
  if q ∈ s then s else s ++ [q]

/-- The offsets `(x, y)` visited by the creation loops of
`World::UpdateChunksAroundPlayer` (`y` outer, `x` inner, both from −R to
R). -/
def streamOffsets : List (Int × Int) :=
  (intRange (-chunkLoadRadius) (2 * chunkLoadRadius + 1).toNat).flatMap
    (fun dy => (intRange (-chunkLoadRadius) (2 * chunkLoadRadius + 1).toNat).map
      (fun dx => (dx, dy)))

/-- `World::UpdateChunksAroundPlayer`: ensure every tile in the
(2R+1)×(2R+1) square around the player tile exists. -/
def World.UpdateChunksAroundPlayer (s : List (Int × Int)) (pc : Int × Int) : List (Int × Int) :=
  streamOffsets.foldl (fun s d => insertCoord s (pc.1 + d.1, pc.2 + d.2)) s

/-- `World::StreamChunks`: create the square around the player, then
remove every resident tile with `xDist > R + 2 || yDist > R + 2`. -/
def World.StreamChunks (s : List (Int × Int)) (pc : Int × Int) : List (Int × Int) :=
  (World.UpdateChunksAroundPlayer s pc).filter
    (fun q => !(decide (chunkLoadRadius + 2 < ((q.1 - pc.1).natAbs : Int)) ||
                decide (chunkLoadRadius + 2 < ((q.2 - pc.2).natAbs : Int))))

/-- Chebyshev distance between tile coordinates (max of the per-axis
absolute differences), the metric of the spec's streaming envelope. -/
def chebDist (a b : Int × Int) : Nat :=
  max (a.1 - b.1).natAbs (a.2 - b.2).natAbs

/-- Euclidean division on `Int` is the `/` of the `Div` instance. -/
theorem intEdiv_eq_hdiv (a b : Int) : Int.ediv a b = a / b := rfl

/-- Both conversions on one axis: the identity `tile * N + local = w`, the
range of the local coordinate, and agreement with floor division (for the
positive divisor `N = 64`, `w / 64` on `Int` is Euclidean division, which
is exactly `⌊w / 64⌋`). -/
theorem worldToCoord1_spec (w : Int) :
    World.WorldToChunkCoord1 w * CHUNK_SIZE + World.WorldToLocalCoord1 w = w ∧
    0 ≤ World.WorldToLocalCoord1 w ∧ World.WorldToLocalCoord1 w < CHUNK_SIZE ∧
    World.WorldToChunkCoord1 w = w / CHUNK_SIZE := by
  simp only [World.WorldToChunkCoord1, World.WorldToLocalCoord1, cppQuot, cppRem, CHUNK_SIZE,
    intEdiv_eq_hdiv]
  split_ifs <;> omega

/-- C7: for every integer world coordinate (wx, wy), including negative
values, the tile and local coordinates computed by
`World::WorldToChunkCoord` / `World::WorldToLocalCoord` satisfy
`tile * N + local = w` with `0 ≤ local < N`, and the tile coordinate is
the floor `w / N` (Euclidean division by the positive constant N = 64). -/
theorem C7_coordinate_mapping (wx wy : Int) :
    (World.WorldToChunkCoord wx wy).1 * CHUNK_SIZE + (World.WorldToLocalCoord wx wy).1 = wx ∧
    0 ≤ (World.WorldToLocalCoord wx wy).1 ∧ (World.WorldToLocalCoord wx wy).1 < CHUNK_SIZE ∧
    (World.WorldToChunkCoord wx wy).1 = wx / CHUNK_SIZE ∧
    (World.WorldToChunkCoord wx wy).2 * CHUNK_SIZE + (World.WorldToLocalCoord wx wy).2 = wy ∧
    0 ≤ (World.WorldToLocalCoord wx wy).2 ∧ (World.WorldToLocalCoord wx wy).2 < CHUNK_SIZE ∧
    (World.WorldToChunkCoord wx wy).2 = wy / CHUNK_SIZE := by
  obtain ⟨h1, h2, h3, h4⟩ := worldToCoord1_spec wx
  obtain ⟨k1, k2, k3, k4⟩ := worldToCoord1_spec wy
  exact ⟨h1, h2, h3, h4, k1, k2, k3, k4⟩

/-- C10: `MoveParticle` succeeds exactly when source and destination are in
bounds and the destination is empty; on failure it returns the chunk
completely unchanged (cells and dirty rect), and on success the result is
the source cell copied to the destination, the source emptied, and both
cells marked dirty, in source order. -/
theorem C10_moveParticle_atomic (c : Chunk) (sx sy dx dy : Int) :
    ((CellularAutomata.MoveParticle c sx sy dx dy).2 = true ↔
      Chunk.IsInBounds sx sy = true ∧ Chunk.IsInBounds dx dy = true ∧
        (c.GetParticle dx dy).IsEmpty = true) ∧
    ((CellularAutomata.MoveParticle c sx sy dx dy).2 = false →
      (CellularAutomata.MoveParticle c sx sy dx dy).1 = c) ∧
    ((CellularAutomata.MoveParticle c sx sy dx dy).2 = true →
      (CellularAutomata.MoveParticle c sx sy dx dy).1 =
        ((((c.writeCell dx dy (c.GetParticle sx sy)).writeCell sx sy
            Particle.mkEmpty).MarkDirty sx sy).MarkDirty dx dy)) := by
  simp only [CellularAutomata.MoveParticle]
  split_ifs with h1 h2
  · rw [Bool.or_eq_true, Bool.not_eq_true', Bool.not_eq_true'] at h1
    refine ⟨⟨fun h => by simp at h, ?_⟩, fun _ => rfl, fun h => by simp at h⟩
    rintro ⟨ha, hb, _⟩
    rcases h1 with h | h <;> simp_all
  · rw [Bool.not_eq_true'] at h2
    rw [Bool.or_eq_true, Bool.not_eq_true', Bool.not_eq_true'] at h1
    push_neg at h1
    refine ⟨⟨fun h => by simp at h, ?_⟩, fun _ => rfl, fun h => by simp at h⟩
    rintro ⟨-, -, hc⟩
    simp_all
  · rw [Bool.not_eq_true'] at h2
    rw [Bool.or_eq_true, Bool.not_eq_true', Bool.not_eq_true'] at h1
    push_neg at h1
    simp only [Bool.not_eq_false] at h2
    exact ⟨⟨fun _ => ⟨by simp_all, by simp_all, h2⟩, fun _ => rfl⟩,
           fun h => by simp at h, fun _ => rfl⟩

/-- Witness for C10 at a concrete input: moving the (empty) cell (0, 0) of
a fresh tile to (0, 1) succeeds, and moving to the out-of-bounds target
(0, −1) fails and leaves the tile unchanged. -/
theorem C10_moveParticle_atomic_witness :
    (CellularAutomata.MoveParticle (Chunk.mk0 (0, 0)) 0 0 0 1).2 = true ∧
    (CellularAutomata.MoveParticle (Chunk.mk0 (0, 0)) 0 0 0 (-1)).1 = Chunk.mk0 (0, 0) :=
  ⟨(C10_moveParticle_atomic (Chunk.mk0 (0, 0)) 0 0 0 1).1.mpr (by decide),
   (C10_moveParticle_atomic (Chunk.mk0 (0, 0)) 0 0 0 (-1)).2.1 (by decide)⟩

/-- The spec's "Sand falls" scenario tile: an empty 64×64 tile in which
cell (32, 0) is set to sand (id 1) through the tile API (which also marks
it dirty). -/
def sandScenario0 : Chunk := (Chunk.mk0 (0, 0)).SetParticle 32 0 (Particle.ofMaterial 1)

/-- The scenario tile after n calls of `Chunk::Update` with dt = 1/60 (no
random samples are consumed: the single sand particle falls straight
down while the tile is still dirty). -/
def sandScenarioFrames (n : Nat) : Chunk :=
  (Nat.iterate (fun s : Chunk × Rng => Chunk.Update s.1 (1/60) s.2) n (sandScenario0, [])).1

set_option maxRecDepth 100000 in
/-- C1: evaluation of the code at the failing input.  One `Chunk::Update`
on the sand tile moves the sand from (32, 0) to (32, 1) — a mutation made
during the update — yet on return the dirty rect is the empty rect, which
contains no cell at all: `Update` clears the rect after the cell loop, so
the marks made by the move are discarded instead of re-expanding the rect
for the next frame. -/
theorem C1_update_discards_dirty_marks :
    (sandScenarioFrames 1).GetParticle 32 1 = Particle.ofMaterial 1 ∧
    sandScenario0.GetParticle 32 1 = Particle.mkEmpty ∧
    (sandScenarioFrames 1).dirtyRect = Rect.zero ∧
    ¬ (sandScenarioFrames 1).dirtyRect.Contains 32 1 := by decide

set_option maxRecDepth 100000 in
/-- C2: evaluation of the code at the failing input.  In the spec's "Sand
falls" scenario, after 64 frames the sand has not reached (32, 63): it
sits frozen at (32, 1), because the first update cleared the dirty rect
after moving it and every later update early-returns on the clean tile. -/
theorem C2_sand_freezes_after_one_cell :
    ((sandScenarioFrames 64).GetParticle 32 63).materialID = 0 ∧
    ((sandScenarioFrames 64).GetParticle 32 1).materialID = 1 ∧
    ((sandScenarioFrames 64).GetParticle 32 0).materialID = 0 := by decide

/-- Membership in an integer loop range. -/
theorem mem_intRange (lo : Int) (n : Nat) (v : Int) :
    v ∈ intRange lo n ↔ lo ≤ v ∧ v < lo + n := by
  simp only [intRange, List.mem_map, List.mem_range]
  constructor
  · rintro ⟨i, hi, rfl⟩
    omega
  · intro h
    exact ⟨(v - lo).toNat, by omega, by omega⟩

/-- The creation loops visit exactly the offsets with both axes in
[−R, R] (R = 3). -/
theorem mem_streamOffsets (d : Int × Int) :
    d ∈ streamOffsets ↔ -3 ≤ d.1 ∧ d.1 ≤ 3 ∧ -3 ≤ d.2 ∧ d.2 ≤ 3 := by
  obtain ⟨dx, dy⟩ := d
  simp only [streamOffsets, List.mem_flatMap, mem_intRange, List.mem_map, chunkLoadRadius,
    Prod.mk.injEq]
  constructor
  · rintro ⟨y, hy, x, hx, h1, h2⟩
    subst h1
    subst h2
    omega
  · rintro ⟨h1, h2, h3, h4⟩
    exact ⟨dy, by omega, dx, by omega, rfl, rfl⟩

/-- A just-created coordinate is resident. -/
theorem mem_insertCoord_self (s : List (Int × Int)) (q : Int × Int) : q ∈ insertCoord s q := by
  unfold insertCoord
  split_ifs with h
  · exact h
  · exact List.mem_append_right s (List.mem_singleton.mpr rfl)

/-- Creation keeps previously resident coordinates. -/
theorem mem_insertCoord_of_mem (s : List (Int × Int)) (a q : Int × Int) (h : q ∈ s) :
    q ∈ insertCoord s a := by
  unfold insertCoord
  split_ifs with hc
  · exact h
  · exact List.mem_append_left _ h

/-- The creation fold keeps previously resident coordinates. -/
theorem mem_foldl_insert_of_mem (l : List (Int × Int)) (pc : Int × Int)
    (s : List (Int × Int)) (q : Int × Int) (h : q ∈ s) :
    q ∈ l.foldl (fun s d => insertCoord s (pc.1 + d.1, pc.2 + d.2)) s := by
  induction l generalizing s with
  | nil => exact h
  | cons d rest ih => exact ih _ (mem_insertCoord_of_mem _ _ _ h)

/-- Every coordinate whose offset the creation fold visits is resident
afterwards. -/
theorem mem_foldl_insert_of_mem_list (l : List (Int × Int)) (pc : Int × Int)
    (s : List (Int × Int)) (d : Int × Int) (h : d ∈ l) :
    (pc.1 + d.1, pc.2 + d.2) ∈ l.foldl (fun s d => insertCoord s (pc.1 + d.1, pc.2 + d.2)) s := by
  induction l generalizing s with
  | nil => cases h
  | cons a rest ih =>
    rw [List.foldl_cons]
    rcases List.mem_cons.mp h with h | h
    · subst h
      exact mem_foldl_insert_of_mem rest pc _ _ (mem_insertCoord_self _ _)
    · exact ih _ h

/-- C3: after every `World::StreamChunks`, every tile coordinate at
Chebyshev distance ≤ R = 3 from the observer tile is resident, and every
resident tile is at Chebyshev distance ≤ R + 2 = 5, for any prior resident
set. -/
theorem C3_streaming_envelope (s : List (Int × Int)) (pc q : Int × Int) :
    (chebDist q pc ≤ 3 → q ∈ World.StreamChunks s pc) ∧
    (q ∈ World.StreamChunks s pc → chebDist q pc ≤ 5) := by
  constructor
  · intro h
    unfold World.StreamChunks
    rw [List.mem_filter]
    constructor
    · unfold World.UpdateChunksAroundPlayer
      have hd : (q.1 - pc.1, q.2 - pc.2) ∈ streamOffsets := by
        rw [mem_streamOffsets]
        unfold chebDist at h
        omega
      have h2 := mem_foldl_insert_of_mem_list streamOffsets pc s (q.1 - pc.1, q.2 - pc.2) hd
      simpa using h2
    · unfold chebDist at h
      simp only [chunkLoadRadius, Bool.not_eq_true', Bool.or_eq_false_iff,
        decide_eq_false_iff_not, not_lt]
      omega
  · intro h
    unfold World.StreamChunks at h
    rw [List.mem_filter] at h
    obtain ⟨-, h⟩ := h
    simp only [chunkLoadRadius, Bool.not_eq_true', Bool.or_eq_false_iff,
      decide_eq_false_iff_not, not_lt] at h
    unfold chebDist
    omega

/-- Witness for C3 at a concrete input: streaming an empty resident set
around observer tile (0, 0) makes tile (3, 3) resident, and that resident
tile is within distance 5. -/
theorem C3_streaming_envelope_witness :
    ((3 : Int), (3 : Int)) ∈ World.StreamChunks [] (0, 0) ∧ chebDist (3, 3) (0, 0) ≤ 5 :=
  ⟨(C3_streaming_envelope [] (0, 0) (3, 3)).1 (by decide),
   (C3_streaming_envelope [] (0, 0) (3, 3)).2
     ((C3_streaming_envelope [] (0, 0) (3, 3)).1 (by decide))⟩

/-- One call of the tile's mutating dirty-rect API between two
`clear_dirty` calls: `SetParticle` or `MarkDirty`. -/
inductive TileOp where
  | set (x y : Int) (p : Particle)
  | mark (x y : Int)

/-- Run one API call. -/
def applyTileOp (c : Chunk) : TileOp → Chunk
  | .set x y p => c.SetParticle x y p
  | .mark x y => c.MarkDirty x y

/-- Run a sequence of API calls. -/
def applyTileOps (c : Chunk) (ops : List TileOp) : Chunk := ops.foldl applyTileOp c

/-- The coordinate an API call touches. -/
def TileOp.targets (o : TileOp) (x y : Int) : Prop :=
  match o with
  | .set a b _ => a = x ∧ b = y
  | .mark a b => a = x ∧ b = y

/-- A non-empty rect expanded to a point contains that point. -/
theorem expand_contains_self (r : Rect) (px py : Int) (hw : 0 < r.width) (hh : 0 < r.height) :
    (r.Expand px py).Contains px py := by
  obtain ⟨rx, ry, rw, rh⟩ := r
  unfold Rect.Expand Rect.Contains at *
  dsimp only at *
  split_ifs <;> first | omega | (dsimp only at *; omega)

/-- `Rect::Expand` never loses a contained point (the asymmetric formula
only grows the rect). -/
theorem expand_contains_of_contains (r : Rect) (px py a b : Int) (h : r.Contains a b) :
    (r.Expand px py).Contains a b := by
  obtain ⟨rx, ry, rw, rh⟩ := r
  unfold Rect.Expand Rect.Contains at *
  dsimp only at *
  split_ifs <;> first | omega | (dsimp only at *; omega)

/-- After `MarkDirty` at an in-bounds cell, the dirty rect contains that
cell. -/
theorem markDirty_contains_self (c : Chunk) (x y : Int) (hin : Chunk.IsInBounds x y = true) :
    ((c.MarkDirty x y).dirtyRect.Contains x y) := by
  unfold Chunk.MarkDirty
  rw [hin]
  simp only [if_true]
  split_ifs with h
  · dsimp only [Rect.Contains]
    omega
  · rw [Rect.IsEmpty, Bool.or_eq_true, not_or] at h
    simp only [decide_eq_true_eq, not_le] at h
    exact expand_contains_self _ _ _ h.1 h.2

/-- `MarkDirty` keeps every point the dirty rect already contained. -/
theorem markDirty_contains_of_contains (c : Chunk) (x y a b : Int)
    (h : c.dirtyRect.Contains a b) : ((c.MarkDirty x y).dirtyRect.Contains a b) := by
  unfold Chunk.MarkDirty
  split_ifs with hin he
  · exfalso
    unfold Rect.IsEmpty at he
    unfold Rect.Contains at h
    simp only [Bool.or_eq_true, decide_eq_true_eq] at he
    omega
  · exact expand_contains_of_contains _ _ _ _ _ h
  · exact h

/-- A raw grid store does not touch the dirty rect. -/
theorem writeCell_dirtyRect (c : Chunk) (x y : Int) (p : Particle) :
    (c.writeCell x y p).dirtyRect = c.dirtyRect := by
  unfold Chunk.writeCell
  split_ifs <;> rfl

/-- After `SetParticle` at an in-bounds cell, the dirty rect contains that
cell. -/
theorem setParticle_contains_self (c : Chunk) (x y : Int) (p : Particle)
    (hin : Chunk.IsInBounds x y = true) :
    ((c.SetParticle x y p).dirtyRect.Contains x y) := by
  unfold Chunk.SetParticle
  rw [hin]
  simp only [if_true]
  exact markDirty_contains_self _ _ _ hin

/-- `SetParticle` keeps every point the dirty rect already contained. -/
theorem setParticle_contains_of_contains (c : Chunk) (x y a b : Int) (p : Particle)
    (h : c.dirtyRect.Contains a b) : ((c.SetParticle x y p).dirtyRect.Contains a b) := by
  unfold Chunk.SetParticle
  split_ifs with hin
  · apply markDirty_contains_of_contains
    rw [writeCell_dirtyRect]
    exact h
  · exact h

/-- Any single API call keeps contained points contained. -/
theorem applyTileOp_contains_of_contains (c : Chunk) (o : TileOp) (a b : Int)
    (h : c.dirtyRect.Contains a b) : ((applyTileOp c o).dirtyRect.Contains a b) := by
  cases o with
  | set x y p => exact setParticle_contains_of_contains _ _ _ _ _ _ h
  | mark x y => exact markDirty_contains_of_contains _ _ _ _ _ h

/-- A sequence of API calls keeps contained points contained. -/
theorem applyTileOps_contains_of_contains (c : Chunk) (ops : List TileOp) (a b : Int)
    (h : c.dirtyRect.Contains a b) : ((applyTileOps c ops).dirtyRect.Contains a b) := by
  induction ops generalizing c with
  | nil => exact h
  | cons o rest ih => exact ih _ (applyTileOp_contains_of_contains _ _ _ _ h)

/-- C4: starting from any tile state since the last `clear_dirty`, after
any sequence of `SetParticle` / `MarkDirty` calls, the dirty rect contains
every in-bounds coordinate that was set or marked by the sequence (so in
particular immediately after each such call), despite the asymmetric
`Rect::Expand` formula. -/
theorem C4_dirty_rect_contains_marks (c : Chunk) (ops : List TileOp) (x y : Int)
    (hin : Chunk.IsInBounds x y = true)
    (hmem : ∃ o ∈ ops, o.targets x y) :
    ((applyTileOps c ops).dirtyRect.Contains x y) := by
  induction ops generalizing c with
  | nil => obtain ⟨o, ho, -⟩ := hmem; cases ho
  | cons o rest ih =>
    rw [applyTileOps, List.foldl_cons]
    obtain ⟨o2, ho2, ht⟩ := hmem
    rcases List.mem_cons.mp ho2 with h | h
    · subst h
      apply applyTileOps_contains_of_contains
      cases o2 with
      | set a b p =>
        obtain ⟨rfl, rfl⟩ := ht
        exact setParticle_contains_self _ _ _ _ hin
      | mark a b =>
        obtain ⟨rfl, rfl⟩ := ht
        exact markDirty_contains_self _ _ _ hin
    · exact ih _ ⟨o2, h, ht⟩

/-- Witness for C4 at a concrete input: marking (5, 7) on a fresh tile
leaves the dirty rect containing (5, 7). -/
theorem C4_dirty_rect_contains_marks_witness :
    ((applyTileOps (Chunk.mk0 (0, 0)) [TileOp.mark 5 7]).dirtyRect.Contains 5 7) :=
  C4_dirty_rect_contains_marks (Chunk.mk0 (0, 0)) [TileOp.mark 5 7] 5 7 (by decide)
    ⟨TileOp.mark 5 7, List.mem_singleton.mpr rfl, rfl, rfl⟩

/-- Reading back one written particle record restores the particle. -/
theorem loadParticle_saveParticle (p : Particle) (rest : List FieldV) :
    loadParticle (saveParticle p ++ rest) = some (p, rest) := rfl

/-- Reading back a written sequence of particle records restores it. -/
theorem loadGrid_saveParticles (g : List Particle) (rest : List FieldV) :
    loadGrid g.length (g.flatMap saveParticle ++ rest) = some (g, rest) := by
  induction g with
  | nil => rfl
  | cons p ps ih =>
    rw [List.length_cons, List.flatMap_cons, List.append_assoc]
    simp only [loadGrid, loadParticle_saveParticle, ih]

/-- C6: for every tile whose grid has the `CHUNK_SIZE * CHUNK_SIZE`
layout, loading the stream produced by saving it restores every cell
record (material id, vx, vy, lifetime, flags) and the tile coordinate
exactly, and the dirty rect of the loaded tile is the full-tile rect
(0, 0, 64, 64). -/
theorem C6_codec_roundtrip (c : Chunk) (h : c.grid.length = 4096) :
    Chunk.Load (Chunk.Save c) =
      some { coord := c.coord, grid := c.grid,
             dirtyRect := ⟨0, 0, CHUNK_SIZE, CHUNK_SIZE⟩ } := by
  have key := loadGrid_saveParticles c.grid []
  rw [List.append_nil, h] at key
  unfold Chunk.Load Chunk.Save
  simp only [key]

/-- Witness for C6 at a concrete input: a fresh tile at coordinate
(5, −7) round-trips through the codec. -/
theorem C6_codec_roundtrip_witness :
    Chunk.Load (Chunk.Save (Chunk.mk0 (5, -7))) =
      some { coord := (5, -7), grid := (Chunk.mk0 (5, -7)).grid,
             dirtyRect := ⟨0, 0, CHUNK_SIZE, CHUNK_SIZE⟩ } :=
  C6_codec_roundtrip (Chunk.mk0 (5, -7)) (List.length_replicate 4096 Particle.mkEmpty)

/-- The ignition pass changes nothing when every visited neighbor is out
of bounds, empty, fire, smoke, or non-flammable. -/
theorem fireIgnite_nop (c : Chunk) (x y : Int) (g : Rng) (a : Nat) (l : List (Int × Int))
    (h : ∀ d ∈ l, Chunk.IsInBounds (x + d.1) (y + d.2) = false ∨
      (c.GetParticle (x + d.1) (y + d.2)).IsEmpty = true ∨
      (c.GetParticle (x + d.1) (y + d.2)).materialID = 4 ∨
      (c.GetParticle (x + d.1) (y + d.2)).materialID = 9 ∨
      (getMaterial (c.GetParticle (x + d.1) (y + d.2)).materialID).flammability ≤ 0) :
    CellularAutomata.fireIgnite c x y g a l = (c, g) := by
  induction l with
  | nil => rw [CellularAutomata.fireIgnite]
  | cons d rest ih =>
    rw [CellularAutomata.fireIgnite]
    have ihr := ih (fun e he => h e (List.mem_cons_of_mem _ he))
    by_cases ha : a ≥ 2
    · rw [if_pos ha]
    · rw [if_neg ha]
      dsimp only
      by_cases hb : Chunk.IsInBounds (x + d.1) (y + d.2) = true
      case neg =>
        rw [Bool.not_eq_true] at hb
        rw [hb]
        simp only [Bool.not_false, if_true]
        exact ihr
      case pos =>
      rw [hb]
      simp only [Bool.not_true, Bool.false_eq_true, if_false]
      rcases h d (List.mem_cons_self _ _) with hc | hc | hc | hc | hc
      · rw [hc] at hb
        cases hb
      · rw [if_pos hc]
        exact ihr
      · rw [if_neg (by simp [Particle.IsEmpty, hc]), if_pos (by simp [hc])]
        exact ihr
      · rw [if_neg (by simp [Particle.IsEmpty, hc]), if_pos (by simp [hc])]
        exact ihr
      · by_cases he : (c.GetParticle (x + d.1) (y + d.2)).IsEmpty = true
        · rw [if_pos he]
          exact ihr
        · rw [if_neg he]
          by_cases hf : ((c.GetParticle (x + d.1) (y + d.2)).materialID == 4
              || (c.GetParticle (x + d.1) (y + d.2)).materialID == 9) = true
          · rw [if_pos hf]
            exact ihr
          · rw [if_neg hf, if_neg (not_lt.mpr hc)]
            exact ihr

/-- An `UpdateFire` invocation entered with positive lifetime first writes
back the decremented lifetime and then runs the flicker / ignition / smoke
steps. -/
theorem updateFire_decrement (c : Chunk) (x y : Int) (dt : ℚ) (g : Rng)
    (h : 0 < (c.GetParticle x y).lifetime) :
    CellularAutomata.UpdateFire c x y dt g =
      CellularAutomata.firePost
        (c.writeCell x y { c.GetParticle x y with lifetime := (c.GetParticle x y).lifetime - 1 })
        x y g := by
  simp only [CellularAutomata.UpdateFire]
  rw [if_pos h]

/-- C8 (amended): in `UpdateFire`, an invocation entered with positive
lifetime only decrements the lifetime and then runs the flicker / ignition
/ smoke steps — the cell is not replaced by the burn-out in that same
invocation.  The burn-out replacement happens on the invocation entered
with lifetime 0: when the burn-out sample is below the 0.6 threshold the
cell becomes smoke (id 9) with lifetime `200 + trunc(r2 * 150)`, which
lies in [200, 350] whenever the lifetime sample `r2` is in [0, 1] (for
negative samples the C++ float→uint32 cast is undefined behaviour);
otherwise the cell becomes empty. -/
theorem C8_fire_lifetime_amended (c : Chunk) (x y : Int) (dt : ℚ) (g : Rng)
    (hfire : (c.GetParticle x y).materialID = 4) :
    (0 < (c.GetParticle x y).lifetime →
      CellularAutomata.UpdateFire c x y dt g =
        CellularAutomata.firePost
          (c.writeCell x y
            { c.GetParticle x y with lifetime := (c.GetParticle x y).lifetime - 1 }) x y g) ∧
    ((c.GetParticle x y).lifetime = 0 →
      ∀ r r2 g2, g = r :: r2 :: g2 →
        (r < 3/5 →
          CellularAutomata.UpdateFire c x y dt g =
            (c.SetParticle x y
              { Particle.ofMaterial 9 with lifetime := 200 + truncToU32 (r2 * 150) }, g2) ∧
          (0 ≤ r2 → r2 ≤ 1 →
            200 ≤ 200 + truncToU32 (r2 * 150) ∧ 200 + truncToU32 (r2 * 150) ≤ 350)) ∧
        (3/5 ≤ r →
          CellularAutomata.UpdateFire c x y dt g =
            (c.SetParticle x y Particle.mkEmpty, r2 :: g2))) := by
  constructor
  · intro h
    simp only [CellularAutomata.UpdateFire]
    rw [if_pos h]
  · intro h0 r r2 g2 hg
    subst hg
    simp only [CellularAutomata.UpdateFire, h0, Rng.next]
    constructor
    · intro hr
      rw [if_neg (by omega), if_pos hr]
      refine ⟨rfl, ?_⟩
      intro hr2a hr2b
      have hnn : (0 : ℚ) ≤ r2 * 150 := mul_nonneg hr2a (by norm_num)
      have hub : ⌊r2 * 150⌋ ≤ 150 := by
        have : r2 * 150 ≤ 150 := by nlinarith
        calc ⌊r2 * 150⌋ ≤ ⌊(150 : ℚ)⌋ := Int.floor_le_floor this
        _ = 150 := by norm_num
      unfold truncToU32 truncToInt
      rw [if_pos hnn]
      omega
    · intro hr
      rw [if_neg (by omega), if_neg (by exact not_lt.mpr hr)]

/-- A lone fire cell at (0, 0) with lifetime 1 in an otherwise empty tile
(every in-bounds neighbor empty, so neither the flicker with an
above-threshold sample, the ignition pass, nor the smoke spawn with an
above-threshold sample changes anything). -/
def fireScenario : Chunk :=
  (Chunk.mk0 (0, 0)).writeCell 0 0 { Particle.ofMaterial 4 with lifetime := 1 }

/-- The scenario tile after the decrement step of the fire rule. -/
def fireScenarioDec : Chunk :=
  fireScenario.writeCell 0 0
    { fireScenario.GetParticle 0 0 with lifetime := (fireScenario.GetParticle 0 0).lifetime - 1 }

set_option maxRecDepth 100000 in
/-- C8 counterexample: invoking the fire rule on a fire cell with lifetime
1 decrements the lifetime to 0, yet the cell is still fire (id 4) when the
invocation returns — the cell is not replaced by smoke or empty within
that same invocation, contradicting the claim as stated; the replacement
only happens on the next invocation, entered with lifetime 0. -/
theorem C8_fire_counterexample :
    (fireScenario.GetParticle 0 0).materialID = 4 ∧
    (fireScenario.GetParticle 0 0).lifetime = 1 ∧
    ((CellularAutomata.UpdateFire fireScenario 0 0 (1/60) [1, 1]).1.GetParticle 0 0).materialID
      = 4 ∧
    ((CellularAutomata.UpdateFire fireScenario 0 0 (1/60) [1, 1]).1.GetParticle 0 0).lifetime
      = 0 := by
  have e1 := updateFire_decrement fireScenario 0 0 (1/60) [1, 1] (by decide)
  have e2 : CellularAutomata.fireFlicker fireScenarioDec 0 0 [1, 1] = (fireScenarioDec, [1]) := by
    simp only [CellularAutomata.fireFlicker, Rng.next]
    rw [if_neg (by norm_num)]
  have e3 : CellularAutomata.fireIgnite fireScenarioDec 0 0 [1] 0 neighborOffsets
      = (fireScenarioDec, [1]) :=
    fireIgnite_nop _ _ _ _ _ _ (by decide)
  have e4 : CellularAutomata.fireSmokeSpawn fireScenarioDec 0 0 [1] = (fireScenarioDec, []) := by
    simp only [CellularAutomata.fireSmokeSpawn, Rng.next]
    rw [if_neg (by norm_num)]
  have e5 : CellularAutomata.UpdateFire fireScenario 0 0 (1/60) [1, 1]
      = (fireScenarioDec, []) := by
    rw [e1]
    show CellularAutomata.firePost fireScenarioDec 0 0 [1, 1] = _
    simp only [CellularAutomata.firePost, e2, e3, e4]
  rw [e5]
  exact ⟨by decide, by decide, by decide, by decide⟩

/-- A fire cell at (0, 0) already at lifetime 0 (burn-out entry). -/
def fireBurnoutScenario : Chunk := (Chunk.mk0 (0, 0)).writeCell 0 0 (Particle.ofMaterial 4)

set_option maxRecDepth 100000 in
/-- Witness for the amended C8 at a concrete input: entered with lifetime
0 and samples (1/2, 1/3), the fire becomes smoke with lifetime 250 =
200 + trunc((1/3) * 150), inside [200, 350]. -/
theorem C8_fire_lifetime_amended_witness :
    CellularAutomata.UpdateFire fireBurnoutScenario 0 0 (1/60) [1/2, 1/3] =
      (fireBurnoutScenario.SetParticle 0 0
        { Particle.ofMaterial 9 with lifetime := 200 + truncToU32 ((1/3 : ℚ) * 150) }, []) ∧
    200 ≤ 200 + truncToU32 ((1/3 : ℚ) * 150) ∧ 200 + truncToU32 ((1/3 : ℚ) * 150) ≤ 350 := by
  have h := ((C8_fire_lifetime_amended fireBurnoutScenario 0 0 (1/60) [1/2, 1/3]
    (by decide)).2 (by decide) (1/2) (1/3) [] rfl).1 (by norm_num)
  exact ⟨h.1, h.2 (by norm_num) (by norm_num)⟩

/-- The offset the lateral-spread loop will move to: the least offset in
`o .. o + fuel - 1` whose cell (at `x + sign * offset`, same row) is
empty, scanning in the source's loop order and skipping non-empty
offsets. -/
def findEmptyOffset : Chunk → Int → Int → Int → Nat → Nat → Option Nat
  | _, _, _, _, 0, _ => none
  | c, x, y, sign, fuel+1, o =>
    if CellularAutomata.IsEmptyAt c (x + sign * (o : Int)) y then some o
    else findEmptyOffset c x y sign fuel (o+1)

/-- A failed `MoveParticle` leaves the chunk unchanged. -/
theorem moveParticle_fst_of_snd_false (c : Chunk) (sx sy dx dy : Int)
    (h : (CellularAutomata.MoveParticle c sx sy dx dy).2 = false) :
    (CellularAutomata.MoveParticle c sx sy dx dy).1 = c := by
  simp only [CellularAutomata.MoveParticle] at *
  split_ifs at * <;> simp_all

/-- `MoveParticle` from an out-of-bounds source always fails and leaves
the chunk unchanged. -/
theorem moveParticle_src_oob (c : Chunk) (sx sy dx dy : Int)
    (h : Chunk.IsInBounds sx sy = false) :
    CellularAutomata.MoveParticle c sx sy dx dy = (c, false) := by
  simp only [CellularAutomata.MoveParticle, h]
  rfl

/-- When the destination is in bounds and empty, `MoveParticle` can only
fail because the source is out of bounds. -/
theorem moveParticle_fail_src (c : Chunk) (sx sy dx dy : Int)
    (hE : CellularAutomata.IsEmptyAt c dx dy = true)
    (hf : (CellularAutomata.MoveParticle c sx sy dx dy).2 = false) :
    Chunk.IsInBounds sx sy = false := by
  simp only [CellularAutomata.IsEmptyAt] at hE
  by_cases hb : Chunk.IsInBounds dx dy = true
  · rw [if_pos hb] at hE
    by_cases hs : Chunk.IsInBounds sx sy = true
    · exfalso
      simp only [CellularAutomata.MoveParticle, hs, hb, Bool.not_true, Bool.false_or,
        Bool.or_self, if_false, hE, Bool.not_false, if_true] at hf
      simp at hf
    · exact Bool.not_eq_true _ ▸ (by revert hs; cases Chunk.IsInBounds sx sy <;> simp)
  · rw [if_neg hb] at hE
    cases hE

/-- C9 (amended): one direction of the liquid lateral-spread loop moves
the particle to the NEAREST EMPTY offset within reach in the chosen
direction — intervening non-empty cells are skipped rather than blocking,
so the destination of a lateral move need not be reachable from the
source through empty cells.  If no offset within reach is empty (or the
source is out of bounds), the chunk is unchanged and the step reports no
move. -/
theorem C9_spread_skips_occupied (c : Chunk) (x y sign : Int) (fuel o : Nat) :
    CellularAutomata.spreadTry c x y sign fuel o =
      match findEmptyOffset c x y sign fuel o with
      | some j => CellularAutomata.MoveParticle c x y (x + sign * (j : Int)) y
      | none => (c, false) := by
  induction fuel generalizing o with
  | zero => rfl
  | succ fuel ih =>
    rw [CellularAutomata.spreadTry, findEmptyOffset]
    by_cases hE : CellularAutomata.IsEmptyAt c (x + sign * (o : Int)) y = true
    · rw [if_pos hE, if_pos hE]
      dsimp only
      by_cases hm : (CellularAutomata.MoveParticle c x y (x + sign * (o : Int)) y).2 = true
      · rw [if_pos hm]
      · rw [Bool.not_eq_true] at hm
        rw [hm]
        simp only [Bool.false_eq_true, if_false]
        rw [moveParticle_fst_of_snd_false _ _ _ _ _ hm, ih]
        have hsrc : Chunk.IsInBounds x y = false := moveParticle_fail_src _ _ _ _ _ hE hm
        have hmm : CellularAutomata.MoveParticle c x y (x + sign * (o : Int)) y = (c, false) :=
          moveParticle_src_oob _ _ _ _ _ hsrc
        rw [hmm]
        cases hfo : findEmptyOffset c x y sign fuel (o + 1) with
        | none => rfl
        | some j => exact moveParticle_src_oob _ _ _ _ _ hsrc
    · rw [Bool.not_eq_true] at hE
      rw [hE]
      simp only [Bool.false_eq_true, if_false]
      exact ih (o + 1)

/-- Water at (2, 63) on the tile floor, a stone wall at (1, 63), and an
empty cell at (0, 63). -/
def waterScenario : Chunk :=
  ((Chunk.mk0 (0, 0)).writeCell 2 63 (Particle.ofMaterial 2)).writeCell 1 63
    (Particle.ofMaterial 3)

set_option maxRecDepth 100000 in
/-- C9 counterexample: with the coin choosing the leftward scan, the
water at (2, 63) moves to (0, 63) PAST the non-empty stone wall at
(1, 63): the destination of the lateral move is not reachable from the
source through empty cells, contradicting the claim as stated. -/
theorem C9_water_counterexample :
    (waterScenario.GetParticle 2 63).materialID = 2 ∧
    (waterScenario.GetParticle 1 63).materialID = 3 ∧
    (waterScenario.GetParticle 0 63).materialID = 0 ∧
    ((CellularAutomata.UpdateWater waterScenario 2 63 (1/60) [1]).1.GetParticle 0 63).materialID
      = 2 ∧
    ((CellularAutomata.UpdateWater waterScenario 2 63 (1/60) [1]).1.GetParticle 1 63).materialID
      = 3 ∧
    ((CellularAutomata.UpdateWater waterScenario 2 63 (1/60) [1]).1.GetParticle 2 63).materialID
      = 0 := by decide

/-- A cell predicate that ignores the velocity components (the universal
kinematics of §4.3 rewrite velocities in place every frame). -/
def velBlind (q : Particle → Bool) : Prop :=
  ∀ (p : Particle) (v w : ℚ), q { p with velocityX := v, velocityY := w } = q p

/-- A cell predicate that never counts empty cells. -/
def emptyFalse (q : Particle → Bool) : Prop :=
  ∀ p : Particle, p.materialID = 0 → q p = false

/-- Writing one grid slot changes a predicate count by swapping the old
cell for the new one. -/
theorem countP_set_add (q : Particle → Bool) (l : List Particle) (i : Nat) (a : Particle)
    (h : i < l.length) :
    (l.set i a).countP q + (if q (l.getD i Particle.mkEmpty) then 1 else 0)
      = l.countP q + (if q a then 1 else 0) := by
  induction l generalizing i with
  | nil => simp at h
  | cons p ps ih =>
    cases i with
    | zero =>
      simp only [List.set_cons_zero, List.countP_cons, List.getD_cons_zero]
      omega
    | succ n =>
      simp only [List.set_cons_succ, List.countP_cons, List.getD_cons_succ]
      have := ih n (by simpa using h)
      omega

/-- A store past the end of the list is a no-op. -/
theorem countP_set_oob (q : Particle → Bool) (l : List Particle) (i : Nat) (a : Particle)
    (h : ¬ i < l.length) : l.set i a = l := by
  induction l generalizing i with
  | nil => simp
  | cons p ps ih =>
    cases i with
    | zero => simp at h
    | succ n =>
      simp only [List.set_cons_succ]
      rw [ih n (by simp at h; omega)]

/-- The per-step conservation relation: from a full 64×64 grid, the step
keeps the grid size and every velocity-blind count of non-empty cells. -/
def PreservesMass (c c' : Chunk) : Prop :=
  c.grid.length = 4096 →
    c'.grid.length = 4096 ∧
    ∀ q : Particle → Bool, velBlind q → emptyFalse q →
      c'.grid.countP q = c.grid.countP q

/-- Conservation is reflexive. -/
theorem preservesMass_refl (c : Chunk) : PreservesMass c c :=
  fun h => ⟨h, fun _ _ _ => rfl⟩

/-- Conservation composes. -/
theorem preservesMass_trans {a b c : Chunk} (h1 : PreservesMass a b) (h2 : PreservesMass b c) :
    PreservesMass a c := by
  intro ha
  obtain ⟨hb, hq1⟩ := h1 ha
  obtain ⟨hc, hq2⟩ := h2 hb
  exact ⟨hc, fun q hv he => (hq2 q hv he).trans (hq1 q hv he)⟩

/-- `MarkDirty` does not touch the grid. -/
theorem markDirty_grid (c : Chunk) (x y : Int) : (c.MarkDirty x y).grid = c.grid := by
  unfold Chunk.MarkDirty
  split_ifs <;> rfl

/-- In-bounds coordinates flatten below the grid size. -/
theorem flattenIndex_lt (x y : Int) (h : Chunk.IsInBounds x y = true) :
    flattenIndex x y < 4096 := by
  simp only [Chunk.IsInBounds, CHUNK_SIZE, Bool.and_eq_true, decide_eq_true_eq] at h
  unfold flattenIndex CHUNK_SIZE
  omega

/-- Reading back a written slot. -/
theorem getD_set_self (l : List Particle) (i : Nat) (a d : Particle) (h : i < l.length) :
    (l.set i a).getD i d = a := by
  induction l generalizing i with
  | nil => simp at h
  | cons p ps ih =>
    cases i with
    | zero => rfl
    | succ n => exact ih n (by simpa using h)

/-- Reading a different slot after a write. -/
theorem getD_set_ne (l : List Particle) (i j : Nat) (a d : Particle) (h : i ≠ j) :
    (l.set i a).getD j d = l.getD j d := by
  induction l generalizing i j with
  | nil => simp
  | cons p ps ih =>
    cases i with
    | zero => cases j with
      | zero => exact absurd rfl h
      | succ m => rfl
    | succ n => cases j with
      | zero => rfl
      | succ m => exact ih n m (by omega)

/-- `MoveParticle` preserves mass: the destination must be empty, so the
move only relocates the source cell. -/
theorem preservesMass_move (c : Chunk) (sx sy dx dy : Int) :
    PreservesMass c (CellularAutomata.MoveParticle c sx sy dx dy).1 := by
  simp only [CellularAutomata.MoveParticle]
  split_ifs with h1 h2
  · exact preservesMass_refl c
  · exact preservesMass_refl c
  · intro hlen
    rw [Bool.or_eq_true, Bool.not_eq_true', Bool.not_eq_true'] at h1
    push_neg at h1
    obtain ⟨hs, hd⟩ := h1
    rw [Bool.ne_false_iff] at hs hd
    simp only [Bool.not_eq_true', Bool.not_eq_false] at h2
    dsimp only
    rw [markDirty_grid, markDirty_grid]
    simp only [Chunk.writeCell, hs, hd, if_true]
    have hdlt : flattenIndex dx dy < 4096 := flattenIndex_lt _ _ hd
    have hslt : flattenIndex sx sy < 4096 := flattenIndex_lt _ _ hs
    refine ⟨by simpa using hlen, ?_⟩
    intro q hv he
    have hA := countP_set_add q c.grid (flattenIndex dx dy) (c.GetParticle sx sy)
      (by omega)
    have hdest0 : (c.grid.getD (flattenIndex dx dy) Particle.mkEmpty).materialID = 0 := by
      simp only [Chunk.GetParticle, hd, if_true, Particle.IsEmpty, beq_iff_eq] at h2
      exact h2
    rw [he _ hdest0] at hA
    have hgetsrc : (c.grid.set (flattenIndex dx dy) (c.GetParticle sx sy)).getD
        (flattenIndex sx sy) Particle.mkEmpty = c.GetParticle sx sy := by
      by_cases hij : flattenIndex dx dy = flattenIndex sx sy
      · rw [← hij]
        exact getD_set_self _ _ _ _ (by omega)
      · rw [getD_set_ne _ _ _ _ _ hij]
        simp only [Chunk.GetParticle, hs, if_true]
    have hB := countP_set_add q (c.grid.set (flattenIndex dx dy) (c.GetParticle sx sy))
      (flattenIndex sx sy) Particle.mkEmpty (by rw [List.length_set]; omega)
    rw [hgetsrc, he Particle.mkEmpty rfl] at hB
    cases hq : q (c.GetParticle sx sy) <;> simp only [hq, if_true, if_false] at hA hB <;> omega

/-- `SwapParticles` preserves mass: the two cells are exchanged. -/
theorem preservesMass_swap (c : Chunk) (x1 y1 x2 y2 : Int) :
    PreservesMass c (CellularAutomata.SwapParticles c x1 y1 x2 y2).1 := by
  simp only [CellularAutomata.SwapParticles]
  split_ifs with h1
  · exact preservesMass_refl c
  · intro hlen
    rw [Bool.or_eq_true, Bool.not_eq_true', Bool.not_eq_true'] at h1
    push_neg at h1
    obtain ⟨ha, hb⟩ := h1
    rw [Bool.ne_false_iff] at ha hb
    dsimp only
    rw [markDirty_grid, markDirty_grid]
    simp only [Chunk.writeCell, ha, hb, if_true]
    have halt : flattenIndex x1 y1 < 4096 := flattenIndex_lt _ _ ha
    have hblt : flattenIndex x2 y2 < 4096 := flattenIndex_lt _ _ hb
    refine ⟨by simpa using hlen, ?_⟩
    intro q hv he
    have hA := countP_set_add q c.grid (flattenIndex x1 y1) (c.GetParticle x2 y2)
      (by omega)
    have hget1 : c.grid.getD (flattenIndex x1 y1) Particle.mkEmpty = c.GetParticle x1 y1 := by
      simp only [Chunk.GetParticle, ha, if_true]
    rw [hget1] at hA
    have hget2 : (c.grid.set (flattenIndex x1 y1) (c.GetParticle x2 y2)).getD
        (flattenIndex x2 y2) Particle.mkEmpty = if flattenIndex x1 y1 = flattenIndex x2 y2
          then c.GetParticle x2 y2 else c.GetParticle x2 y2 := by
      split_ifs with hij
      · rw [← hij]
        exact getD_set_self _ _ _ _ (by omega)
      · rw [getD_set_ne _ _ _ _ _ hij]
        simp only [Chunk.GetParticle, hb, if_true]
    rw [ite_self] at hget2
    have hB := countP_set_add q (c.grid.set (flattenIndex x1 y1) (c.GetParticle x2 y2))
      (flattenIndex x2 y2) (c.GetParticle x1 y1) (by rw [List.length_set]; omega)
    rw [hget2] at hB
    cases hq1 : q (c.GetParticle x1 y1) <;> cases hq2 : q (c.GetParticle x2 y2) <;>
      simp only [hq1, hq2, if_true, if_false] at hA hB <;> omega

/-- `UpdateVelocity` only rewrites the velocity components. -/
theorem velBlind_updateVelocity (q : Particle → Bool) (hq : velBlind q) (p : Particle) (dt : ℚ) :
    q (CellularAutomata.UpdateVelocity p dt) = q p := by
  unfold CellularAutomata.UpdateVelocity CellularAutomata.ApplyGravity
  dsimp only
  split_ifs <;> exact hq p _ _

/-- The dispatcher's trailing `UpdateVelocity` store preserves mass. -/
theorem preservesMass_writeVelocity (c : Chunk) (x y : Int) (dt : ℚ) :
    PreservesMass c (c.writeCell x y (CellularAutomata.UpdateVelocity (c.GetParticle x y) dt)) := by
  unfold Chunk.writeCell
  split_ifs with hin
  · intro hlen
    have hlt : flattenIndex x y < 4096 := flattenIndex_lt _ _ hin
    refine ⟨by simpa using hlen, ?_⟩
    intro q hv he
    have hA := countP_set_add q c.grid (flattenIndex x y)
      (CellularAutomata.UpdateVelocity (c.GetParticle x y) dt) (by omega)
    have hget : c.grid.getD (flattenIndex x y) Particle.mkEmpty = c.GetParticle x y := by
      simp only [Chunk.GetParticle, hin, if_true]
    rw [hget, velBlind_updateVelocity q hv] at hA
    dsimp only
    omega
  · exact preservesMass_refl c

/-- A guarded move attempt preserves mass. -/
theorem preservesMass_tryMove (c : Chunk) (sx sy a b : Int) (cond : Bool) :
    PreservesMass c ((if cond = true then CellularAutomata.MoveParticle c sx sy a b
      else (c, false)).1) := by
  split_ifs
  · exact preservesMass_move _ _ _ _ _
  · exact preservesMass_refl c

/-- The solid-powder rule only moves the cell. -/
theorem preservesMass_sand (c : Chunk) (x y : Int) (dt : ℚ) (g : Rng) :
    PreservesMass c (CellularAutomata.UpdateSand c x y dt g).1 := by
  rw [CellularAutomata.UpdateSand]
  by_cases h1 : CellularAutomata.IsEmptyAt c x (y + 1) = true
  · rw [if_pos h1]
    exact preservesMass_move _ _ _ _ _
  · rw [if_neg h1]
    rcases hrg : Rng.next g with ⟨r, g2⟩
    dsimp only
    split_ifs <;>
      first
        | exact preservesMass_refl c
        | exact preservesMass_move _ _ _ _ _
        | exact preservesMass_trans (preservesMass_move _ _ _ _ _)
            (preservesMass_move _ _ _ _ _)

/-- The lateral-spread loop only moves the cell. -/
theorem preservesMass_spreadTry (x y sign : Int) :
    ∀ (fuel o : Nat) (c : Chunk),
      PreservesMass c (CellularAutomata.spreadTry c x y sign fuel o).1 := by
  intro fuel
  induction fuel with
  | zero => exact fun o c => preservesMass_refl c
  | succ fuel ih =>
    intro o c
    rw [CellularAutomata.spreadTry]
    by_cases hE : CellularAutomata.IsEmptyAt c (x + sign * (o : Int)) y = true
    · rw [if_pos hE]
      dsimp only
      by_cases hm : (CellularAutomata.MoveParticle c x y (x + sign * (o : Int)) y).2 = true
      · rw [if_pos hm]
        exact preservesMass_move _ _ _ _ _
      · rw [if_neg hm]
        exact preservesMass_trans (preservesMass_move _ _ _ _ _) (ih _ _)
    · rw [if_neg hE]
      exact ih _ _

/-- The liquid rule only moves the cell. -/
theorem preservesMass_water (c : Chunk) (x y : Int) (dt : ℚ) (g : Rng) :
    PreservesMass c (CellularAutomata.UpdateWater c x y dt g).1 := by
  rw [CellularAutomata.UpdateWater]
  by_cases h1 : CellularAutomata.IsEmptyAt c x (y + 1) = true
  · rw [if_pos h1]
    exact preservesMass_move _ _ _ _ _
  · rw [if_neg h1]
    rcases hrg : Rng.next g with ⟨r, g2⟩
    dsimp only
    have hres : ∀ res : Chunk × Bool, PreservesMass c res.1 →
        PreservesMass c ((if res.2 = true then (res.1, g2)
          else if CellularAutomata.IsEmptyAt res.1 (x - 1) (y + 1) = true then
            ((CellularAutomata.MoveParticle res.1 x y (x - 1) (y + 1)).1, g2)
          else if CellularAutomata.IsEmptyAt res.1 (x + 1) (y + 1) = true then
            ((CellularAutomata.MoveParticle res.1 x y (x + 1) (y + 1)).1, g2)
          else (res.1, g2)).1) := by
      intro res hr
      split_ifs <;>
        first
          | exact hr
          | exact preservesMass_trans hr (preservesMass_move _ _ _ _ _)
    refine hres _ ?_
    split_ifs <;>
      first
        | exact preservesMass_spreadTry _ _ _ _ _ _
        | exact preservesMass_trans (preservesMass_spreadTry _ _ _ _ _ _)
            (preservesMass_spreadTry _ _ _ _ _ _)

/-- The registered material ids outside the transmuting set
{4 fire, 6 gunpowder, 7 acid, 9 smoke, 10 salt}: empty, sand, water,
stone, wood, oil. -/
def allowedId (m : Nat) : Prop := m = 0 ∨ m = 1 ∨ m = 2 ∨ m = 3 ∨ m = 5 ∨ m = 8

instance (m : Nat) : Decidable (allowedId m) := by unfold allowedId; infer_instance

/-- Every cell of the tile holds one of the non-transmuting registered
materials. -/
def okChunk (c : Chunk) : Prop := ∀ p ∈ c.grid, allowedId p.materialID

/-- Any cell read from such a tile has an allowed id (out-of-bounds reads
yield the empty particle). -/
theorem okChunk_get (c : Chunk) (h : okChunk c) (x y : Int) :
    allowedId (c.GetParticle x y).materialID := by
  unfold Chunk.GetParticle
  split_ifs with hb
  · by_cases h2 : flattenIndex x y < c.grid.length
    · rw [List.getD_eq_get _ _ h2]
      exact h _ (List.get_mem _ _ _)
    · rw [List.getD_eq_default _ _ (le_of_not_lt h2)]
      exact Or.inl rfl
  · exact Or.inl rfl

/-- The oil fire scan does nothing when no visited neighbor is fire. -/
theorem oilFireScan_nop (c : Chunk) (x y : Int) (g : Rng) (l : List (Int × Int))
    (h : ∀ d ∈ l, (c.GetParticle (x + d.1) (y + d.2)).materialID ≠ 4) :
    CellularAutomata.oilFireScan c x y g l = (c, g, false) := by
  induction l with
  | nil => rw [CellularAutomata.oilFireScan]
  | cons d rest ih =>
    rw [CellularAutomata.oilFireScan]
    have ihr := ih (fun e he => h e (List.mem_cons_of_mem _ he))
    dsimp only
    by_cases hb : Chunk.IsInBounds (x + d.1) (y + d.2) = true
    case neg =>
      rw [Bool.not_eq_true] at hb
      rw [hb]
      simp only [Bool.not_false, if_true]
      exact ihr
    case pos =>
    rw [hb]
    simp only [Bool.not_true, Bool.false_eq_true, if_false]
    rw [if_neg (by simp only [beq_iff_eq]; exact h d (List.mem_cons_self _ _))]
    exact ihr

set_option maxHeartbeats 1000000 in
/-- With no fire anywhere in the tile, the oil rule only moves or swaps
the cell. -/
theorem preservesMass_oil (c : Chunk) (x y : Int) (dt : ℚ) (g : Rng) (hok : okChunk c) :
    PreservesMass c (CellularAutomata.UpdateOil c x y dt g).1 := by
  rw [CellularAutomata.UpdateOil]
  have hscan : CellularAutomata.oilFireScan c x y g neighborOffsets = (c, g, false) :=
    oilFireScan_nop c x y g neighborOffsets (fun d hd => by
      have := okChunk_get c hok (x + d.1) (y + d.2)
      unfold allowedId at this
      omega)
  rw [hscan]
  dsimp only
  rw [if_neg Bool.false_ne_true]
  by_cases h1 : CellularAutomata.IsEmptyAt c x (y + 1) = true
  · rw [if_pos h1]
    exact preservesMass_move _ _ _ _ _
  · rw [if_neg h1]
    by_cases h2 : (Chunk.IsInBounds x (y + 1) && (c.GetParticle x (y + 1)).materialID == 2) = true
    · rw [if_pos h2]
      exact preservesMass_swap _ _ _ _ _
    · rw [if_neg h2]
      by_cases h3 : (Chunk.IsInBounds (x - 1) (y + 1)
          && (c.GetParticle (x - 1) (y + 1)).materialID == 2) = true
      · rw [if_pos h3]
        exact preservesMass_swap _ _ _ _ _
      · rw [if_neg h3]
        by_cases h4 : (Chunk.IsInBounds (x + 1) (y + 1)
            && (c.GetParticle (x + 1) (y + 1)).materialID == 2) = true
        · rw [if_pos h4]
          exact preservesMass_swap _ _ _ _ _
        · rw [if_neg h4]
          rcases hrg : Rng.next g with ⟨r, g2⟩
          dsimp only
          have hres : ∀ res : Chunk × Bool, PreservesMass c res.1 →
              PreservesMass c ((if res.2 = true then (res.1, g2)
                else if CellularAutomata.IsEmptyAt res.1 (x - 1) (y + 1) = true then
                  ((CellularAutomata.MoveParticle res.1 x y (x - 1) (y + 1)).1, g2)
                else if CellularAutomata.IsEmptyAt res.1 (x + 1) (y + 1) = true then
                  ((CellularAutomata.MoveParticle res.1 x y (x + 1) (y + 1)).1, g2)
                else (res.1, g2)).1) := by
            intro res hr
            split_ifs <;>
              first
                | exact hr
                | exact preservesMass_trans hr (preservesMass_move _ _ _ _ _)
          refine hres _ ?_
          split_ifs <;>
            first
              | exact preservesMass_spreadTry _ _ _ _ _ _
              | exact preservesMass_trans (preservesMass_spreadTry _ _ _ _ _ _)
                  (preservesMass_spreadTry _ _ _ _ _ _)

/-- Mass conservation keeps the allowed-ids invariant: an id with zero
count stays at zero count. -/
theorem okChunk_of_preservesMass (c c' : Chunk) (hok : okChunk c) (hlen : c.grid.length = 4096)
    (hp : PreservesMass c c') : okChunk c' := by
  intro p hm
  by_contra hbad
  have hv : velBlind (fun a => a.materialID == p.materialID) := fun a v w => rfl
  have he : emptyFalse (fun a => a.materialID == p.materialID) := by
    intro a ha0
    simp only [ha0, beq_eq_false_iff_ne]
    intro h0
    exact hbad (h0 ▸ Or.inl rfl)
  have hz : c.grid.countP (fun a => a.materialID == p.materialID) = 0 := by
    rw [List.countP_eq_zero]
    intro a ha
    have hal := hok a ha
    simp only [beq_iff_eq]
    intro heq
    rw [heq] at hal
    exact hbad hal
  obtain ⟨-, hq⟩ := hp hlen
  have hz' := (hq _ hv he).trans hz
  have := List.countP_eq_zero.mp hz' p hm
  simp at this

/-- One dispatcher invocation on a tile of non-transmuting materials
preserves mass. -/
theorem preservesMass_updateParticle (c : Chunk) (x y : Int) (dt : ℚ) (g : Rng)
    (hok : okChunk c) :
    PreservesMass c (CellularAutomata.UpdateParticle c x y dt g).1 := by
  rw [CellularAutomata.UpdateParticle]
  dsimp only
  by_cases hE : (c.GetParticle x y).IsEmpty = true
  · rw [if_pos hE]
    exact preservesMass_refl c
  · rw [if_neg hE]
    have hid := okChunk_get c hok x y
    rcases hid with h1 | h1 | h1 | h1 | h1 | h1
    · exact absurd (by simp [Particle.IsEmpty, h1]) hE
    · rw [h1]
      exact preservesMass_trans (preservesMass_sand _ _ _ _ _)
        (preservesMass_writeVelocity _ _ _ _)
    · rw [h1]
      exact preservesMass_trans (preservesMass_water _ _ _ _ _)
        (preservesMass_writeVelocity _ _ _ _)
    · rw [h1]
      exact preservesMass_trans (preservesMass_sand _ _ _ _ _)
        (preservesMass_writeVelocity _ _ _ _)
    · rw [h1]
      exact preservesMass_trans (preservesMass_sand _ _ _ _ _)
        (preservesMass_writeVelocity _ _ _ _)
    · rw [h1]
      exact preservesMass_trans (preservesMass_oil _ _ _ _ _ hok)
        (preservesMass_writeVelocity _ _ _ _)

/-- The row-major cell loop of `Chunk::Update` preserves mass. -/
theorem preservesMass_cellLoop (dt : ℚ) (coords : List (Int × Int)) :
    ∀ (c : Chunk) (g : Rng), okChunk c → c.grid.length = 4096 →
      PreservesMass c (coords.foldl
        (fun (s : Chunk × Rng) xy => CellularAutomata.UpdateParticle s.1 xy.1 xy.2 dt s.2)
        (c, g)).1 := by
  induction coords with
  | nil => exact fun c g _ _ => preservesMass_refl c
  | cons xy rest ih =>
    intro c g hok hlen
    rw [List.foldl_cons]
    have h1 : PreservesMass c (CellularAutomata.UpdateParticle c xy.1 xy.2 dt g).1 :=
      preservesMass_updateParticle c xy.1 xy.2 dt g hok
    have hok1 : okChunk (CellularAutomata.UpdateParticle c xy.1 xy.2 dt g).1 :=
      okChunk_of_preservesMass _ _ hok hlen h1
    have hlen1 : (CellularAutomata.UpdateParticle c xy.1 xy.2 dt g).1.grid.length = 4096 :=
      (h1 hlen).1
    exact preservesMass_trans h1 (ih _ _ hok1 hlen1)

/-- `ClearDirty` does not touch the grid. -/
theorem clearDirty_grid (c : Chunk) : c.ClearDirty.grid = c.grid := rfl

/-- A full `Chunk::Update` frame preserves mass on a tile of
non-transmuting materials. -/
theorem preservesMass_update (c : Chunk) (dt : ℚ) (g : Rng) (hok : okChunk c)
    (hlen : c.grid.length = 4096) :
    PreservesMass c (Chunk.Update c dt g).1 := by
  rw [Chunk.Update]
  split_ifs with h1
  · exact preservesMass_refl c
  · dsimp only
    exact preservesMass_trans
      (preservesMass_cellLoop dt (updateCoords c.dirtyRect) c g hok hlen)
      (fun hl => ⟨hl, fun q _ _ => rfl⟩)

/-- The identity of a particle for the conservation statement: material
id, lifetime, flags.  Velocities are excluded because the universal
kinematics (§4.3) rewrite them in place every frame. -/
def cellKey (p : Particle) : Nat × Nat × Nat := (p.materialID, p.lifetime, p.flags)

/-- The multiset of non-empty cells of a tile, each cell identified by
its `cellKey`. -/
def cellKeys (c : Chunk) : Multiset (Nat × Nat × Nat) :=
  ((c.grid.filter (fun p => !p.IsEmpty)).map cellKey : List (Nat × Nat × Nat))

/-- C5: on a tile in which no cell holds a material in {4 fire,
6 gunpowder, 7 acid, 9 smoke, 10 salt} (all cells drawn from the
registered non-transmuting materials 0, 1, 2, 3, 5, 8), one `Chunk::Update`
frame preserves the multiset of non-empty cells: particles are only
relocated by moves into empty cells or swaps, never created, destroyed,
or transmuted.  Iterating the theorem gives the claim for any sequence of
updates, since the hypothesis is preserved (no new ids can appear). -/
theorem C5_mass_conservation (c : Chunk) (dt : ℚ) (g : Rng) (hok : okChunk c)
    (hlen : c.grid.length = 4096) :
    cellKeys (Chunk.Update c dt g).1 = cellKeys c := by
  have hp := preservesMass_update c dt g hok hlen
  obtain ⟨-, hq⟩ := hp hlen
  unfold cellKeys
  ext a
  rw [Multiset.coe_count, Multiset.coe_count]
  simp only [List.count, List.countP_map, List.countP_filter, Function.comp]
  refine hq _ (fun p v w => rfl) (fun p h => ?_)
  simp [Particle.IsEmpty, h]

/-- The grid of the sand scenario tile, explicitly. -/
theorem sandScenario0_grid :
    sandScenario0.grid
      = (List.replicate 4096 Particle.mkEmpty).set (flattenIndex 32 0) (Particle.ofMaterial 1) :=
  rfl

/-- Witness for C5 at a concrete input: a frame on the tile holding one
sand particle preserves its multiset of non-empty cells. -/
theorem C5_mass_conservation_witness :
    cellKeys (Chunk.Update sandScenario0 (1/60) []).1 = cellKeys sandScenario0 :=
  C5_mass_conservation sandScenario0 (1/60) []
    (fun p hp => by
      rw [sandScenario0_grid] at hp
      rcases List.mem_or_eq_of_mem_set hp with h | h
      · rw [List.eq_of_mem_replicate h]
        exact Or.inl rfl
      · rw [h]
        exact Or.inr (Or.inl rfl))
    (by rw [sandScenario0_grid, List.length_set, List.length_replicate])
